import Mathlib

/-!
Festival command-line solver: scheduler, parser and replay.

A shallow embedding of `solver_lib.cpp`, `cli_parser.cpp` and the replay loop of
`fess-cli.cpp`.

Conventions of the embedding.

* C `int` values are mathematical integers (signed overflow is undefined in C and is
  not modelled).
* Everything the source calls but does not define (search engines, shape-adjustment
  functions, preprocessing passes, `reset_helper`, `time`) is a field of `Env`; these
  act on an arbitrary external state `Ext` (search arenas, caches, the clock source and
  whatever else the collaborators keep), on the board and on the helper they are handed.
* `time(0)` reads the clock of the external state; only external collaborators advance it.
* A `helper*` is the index of the helper in the global array `helpers`.
* A C string is the list of its characters (exact for text without the NUL character);
  the bytes of a row buffer past its string are the terminator and then unspecified.
* `State.trace` is a ghost log of the calls made; it is appended to, never read.
* Diagnostic output (`printf`, `print_board` under `verbose`) is left out.
-/

namespace Festival

/-! ## Data model -/

/-- Modelled from the spec: the search-type selectors of `global.h`, which is not part of the
sources at hand, taken as pairwise distinct tags. `OTHER` stands for any further selector
the shape-adjustment functions may answer. -/
inductive SearchType
  | BASE_SEARCH
  | MAX_DIST_SEARCH2
  | GIRL_SEARCH
  | HF_SEARCH
  | BICON_SEARCH
  | MAX_DIST_SEARCH
  | REV_SEARCH
  | DRAGONFLY
  | FORWARD_WITH_BASES
  | NAIVE_SEARCH
  | SNAIL_SEARCH
  | NETLOCK_SEARCH
  | OTHER (code : Nat)
  deriving DecidableEq, Repr

/-- The grid `board`: the cell flags at row `y`, column `x`. -/
abbrev board := Nat → Nat → Nat

/-- Modelled from the spec: the abstract push `move` of `moves.h` (box index before and after,
the side the player ends on, the pull flag). -/
structure move where
  from_ : Int
  to_ : Int
  sokoban_position : Nat
  pull : Int
  deriving DecidableEq, Repr

/-- Modelled from the spec: the fields of the attempt state `helper` (`helper.h`) that the
sources at hand read or write. `sol_move` holds the first `sol_len` moves. -/
structure helper where
  level_solved : Int
  sol_move : List move
  parking_order_num : Int
  perimeter_found : Int
  weighted_search : Int
  my_core : Nat
  deriving DecidableEq, Repr

/-- Ghost log entries, one per call site of interest. -/
inductive Event
  | time (v : Int)
  | reset_helper (h : Nat)
  | solve_with_alg (time_allocation : Int) (strategy_index : Nat)
  | level_solved (v : Int)
  | packing_search_control (time_allocation : Int) (search_type : SearchType) (h : helper)
  | setup_plan_features (search_type : SearchType)
  | forward_search_control (time_allocation : Int) (search_type : SearchType) (h : helper)
  | FESS (time_allocation : Int) (search_type : SearchType)
  | packing_search (time_allocation : Int) (search_type : SearchType)
  | dragonfly_search (time_allocation : Int)
  deriving DecidableEq, Repr

/-- Is the entry a call of one of the three search engines? -/
def Event.isEngine : Event → Bool
  | .FESS _ _ => true
  | .packing_search _ _ => true
  | .dragonfly_search _ => true
  | _ => false

/-- Is the entry the start of a strategy attempt? -/
def Event.isAttempt : Event → Bool
  | .solve_with_alg _ _ => true
  | _ => false

/-- Is the entry a call of the forward controller? -/
def Event.isForward : Event → Bool
  | .forward_search_control _ _ _ => true
  | _ => false

/-- Is the entry a call of `reset_helper`? -/
def Event.isReset : Event → Bool
  | .reset_helper _ => true
  | _ => false

/-- The globals of `solver_lib.cpp` and `global.h` together with the external state. -/
structure State (Ext : Type) where
  ext : Ext
  helpers : Nat → helper
  start_time : Int
  time_limit : Int
  end_time : Int
  any_core_solved : Int
  cores_num : Int
  forced_alg : Option (Fin 8)
  height : Int
  width : Int
  global_fail_reason : String
  trace : List Event

/-- What an engine leaves behind: the board, the helper it was handed, the external state. -/
structure EngineOut (Ext : Type) where
  b : board
  h : helper
  ext : Ext

/-- The external collaborators. -/
structure Env (Ext : Type) where
  time : Ext → Int
  reset_helper : helper → Ext → helper × Ext
  set_snail_parameters : SearchType → Int → helper → Ext → SearchType × helper × Ext
  set_netlock_parameters : SearchType → Int → helper → Ext → SearchType × helper × Ext
  FESS : board → Int → SearchType → Nat → helper → Ext → EngineOut Ext
  packing_search : board → Int → SearchType → Nat → helper → Ext → EngineOut Ext
  dragonfly_search : board → Int → helper → Ext → EngineOut Ext
  verify_parking_order : helper → Ext → helper × Ext
  reduce_parking_order : helper → Ext → helper × Ext
  show_parking_order : helper → Ext → helper × Ext
  prepare_oop_zones : helper → Ext → helper × Ext
  sanity_checks : board → Ext → Int × board × Ext
  clear_deadlock_cache : Ext → Ext
  clear_k_dist_hash : Ext → Ext
  clear_perimeter : Ext → Ext
  turn_decorative_boxes_to_walls : board → Ext → board × Ext
  close_holes_in_board : board → Ext → board × Ext
  init_inner : board → Ext → board × Ext
  init_index_x_y : Ext → Ext
  keep_boxes_in_inner : board → Ext → board × Ext
  save_initial_board : board → Ext → board × Ext
  expand_sokoban_cloud : board → Ext → board × Ext
  set_forbidden_tunnel : Ext → Ext
  mark_target_holes : board → Ext → board × Ext
  set_distances : board → Ext → board × Ext
  analyse_rooms : board → Ext → Int × board × Ext
  init_rooms_deadlock : Ext → Ext
  init_hotspots : board → Ext → board × Ext
  build_mpdb2 : Ext → Ext
  build_pull_mpdb2 : Ext → Ext
  init_envelope_patterns : Ext → Ext
  init_girl_variables : board → Ext → board × Ext
  init_stuck_patterns : Ext → Ext
  detect_snail_level : board → Ext → board × Ext

variable {Ext : Type}

/-! ## Plumbing: logging and external calls -/

/-- Append an entry to the ghost log. -/
def State.log (s : State Ext) (e : Event) : State Ext :=
  { s with trace := s.trace ++ [e] }

/-- Store a helper back into `helpers[hi]`. -/
def State.setHelper (s : State Ext) (hi : Nat) (h : helper) : State Ext :=
  { s with helpers := Function.update s.helpers hi h }

/-- The call `(int)time(0)`: the value read, and the state with the read logged. -/
def time0 (env : Env Ext) (s : State Ext) : Int × State Ext :=
  (env.time s.ext, s.log (Event.time (env.time s.ext)))

/-- A call `f(h)` of an external function that works on a helper. -/
def callH (f : helper → Ext → helper × Ext) (hi : Nat) (s : State Ext) : State Ext :=
  { s with helpers := Function.update s.helpers hi (f (s.helpers hi) s.ext).1,
           ext := (f (s.helpers hi) s.ext).2 }

/-- A call of an external function that works on the external state only. -/
def callE (f : Ext → Ext) (s : State Ext) : State Ext :=
  { s with ext := f s.ext }

/-- A call `f(b)` of an external function that works on the board. -/
def callB (f : board → Ext → board × Ext) (p : board × State Ext) : board × State Ext :=
  ((f p.1 p.2.ext).1, { p.2 with ext := (f p.1 p.2.ext).2 })

/-- The call `reset_helper(h)`, logged. -/
def call_reset_helper (env : Env Ext) (hi : Nat) (s : State Ext) : State Ext :=
  callH env.reset_helper hi (s.log (Event.reset_helper hi))

/-- A call `search_type = f(search_type, pull_mode, h)` of a shape-adjustment function. -/
def call_adjust (f : SearchType → Int → helper → Ext → SearchType × helper × Ext)
    (search_type : SearchType) (pull_mode : Int) (hi : Nat) (s : State Ext) :
    SearchType × State Ext :=
  ((f search_type pull_mode (s.helpers hi) s.ext).1,
   { s with helpers :=
              Function.update s.helpers hi (f search_type pull_mode (s.helpers hi) s.ext).2.1,
            ext := (f search_type pull_mode (s.helpers hi) s.ext).2.2 })

/-- Write an engine's result back: the helper into `helpers[hi]`, the external state. -/
def State.afterEngine (s : State Ext) (hi : Nat) (o : EngineOut Ext) : board × State Ext :=
  (o.b, { s with helpers := Function.update s.helpers hi o.h, ext := o.ext })

/-- The call `FESS(b, time_allocation, search_type, t, h)`, logged. -/
def call_FESS (env : Env Ext) (b : board) (time_allocation : Int) (search_type : SearchType)
    (t hi : Nat) (s : State Ext) : board × State Ext :=
  (s.log (Event.FESS time_allocation search_type)).afterEngine hi
    (env.FESS b time_allocation search_type t (s.helpers hi) s.ext)

/-- The call `packing_search(b, time_allocation, search_type, t, h)`, logged. -/
def call_packing_search (env : Env Ext) (b : board) (time_allocation : Int)
    (search_type : SearchType) (t hi : Nat) (s : State Ext) : board × State Ext :=
  (s.log (Event.packing_search time_allocation search_type)).afterEngine hi
    (env.packing_search b time_allocation search_type t (s.helpers hi) s.ext)

/-- The call `dragonfly_search(b, time_allocation, h)`, logged. -/
def call_dragonfly_search (env : Env Ext) (b : board) (time_allocation : Int)
    (hi : Nat) (s : State Ext) : board × State Ext :=
  (s.log (Event.dragonfly_search time_allocation)).afterEngine hi
    (env.dragonfly_search b time_allocation (s.helpers hi) s.ext)

/-! ## `solver_lib.cpp` -/

/-- Lines 111-134 of `preprocess_level`: the passes between the sanity checks and the room
analysis. -/
def preprocess_before_rooms (env : Env Ext) (b : board) (s : State Ext) : board × State Ext :=
  let s := callE env.clear_deadlock_cache s
  let s := callE env.clear_k_dist_hash s
  let s := callE env.clear_perimeter s
  let p := callB env.turn_decorative_boxes_to_walls (b, s)
  let p := callB env.close_holes_in_board p
  let p := callB env.init_inner p
  let p := (p.1, callE env.init_index_x_y p.2)
  let p := callB env.keep_boxes_in_inner p
  let p := callB env.save_initial_board p
  let p := callB env.expand_sokoban_cloud p
  let p := (p.1, callE env.set_forbidden_tunnel p.2)
  let p := callB env.mark_target_holes p
  callB env.set_distances p

/-- Lines 139-151 of `preprocess_level`: the passes after a successful room analysis. -/
def preprocess_after_rooms (env : Env Ext) (b : board) (s : State Ext) : board × State Ext :=
  let s := callE env.init_rooms_deadlock s
  let p := callB env.init_hotspots (b, s)
  let p := (p.1, callE env.build_mpdb2 p.2)
  let p := (p.1, callE env.build_pull_mpdb2 p.2)
  let p := (p.1, callE env.init_envelope_patterns p.2)
  let p := callB env.init_girl_variables p
  let p := (p.1, callE env.init_stuck_patterns p.2)
  callB env.detect_snail_level p

/-- The call `analyse_rooms(b)` on the board and state the earlier passes left. -/
def call_analyse_rooms (env : Env Ext) (p : board × State Ext) : Int × board × State Ext :=
  ((env.analyse_rooms p.1 p.2.ext).1, (env.analyse_rooms p.1 p.2.ext).2.1,
   { p.2 with ext := (env.analyse_rooms p.1 p.2.ext).2.2 })

/-- The call `sanity_checks(b)`. -/
def call_sanity_checks (env : Env Ext) (b : board) (s : State Ext) : Int × board × State Ext :=
  ((env.sanity_checks b s.ext).1, (env.sanity_checks b s.ext).2.1,
   { s with ext := (env.sanity_checks b s.ext).2.2 })

/-- `preprocess_level(b)`: the result, the board as left, the state. -/
def preprocess_level (env : Env Ext) (b : board) (s : State Ext) : Int × board × State Ext :=
  let s : State Ext := { s with global_fail_reason := "Unknown reason" }
  if s.height = 0 ∨ s.width = 0 then (0, b, s) else
  let c := call_sanity_checks env b s
  if c.1 = 0 then (0, c.2.1, c.2.2) else
  let p := preprocess_before_rooms env c.2.1 c.2.2
  let r := call_analyse_rooms env p
  if r.1 = 0 then (0, r.2.1, r.2.2) else
  let q := preprocess_after_rooms env r.2.1 r.2.2
  (1, q.1, q.2)

/-- `setup_plan_features(search_type, h)`: the validation gate after the backward phase. -/
def setup_plan_features (env : Env Ext) (search_type : SearchType) (hi : Nat)
    (s : State Ext) : Int × State Ext :=
  let s := s.log (Event.setup_plan_features search_type)
  if search_type = SearchType.HF_SEARCH then (1, s) else
  if search_type = SearchType.BICON_SEARCH then (1, s) else
  if search_type = SearchType.MAX_DIST_SEARCH then (1, s) else
  if search_type = SearchType.MAX_DIST_SEARCH2 then (1, s) else
  if search_type = SearchType.REV_SEARCH then (1, s) else
  if search_type = SearchType.NAIVE_SEARCH then (1, s) else
  if search_type = SearchType.DRAGONFLY then (1, s) else
  if (s.helpers hi).parking_order_num = 0 then
    (0, { s with global_fail_reason := "Could not find packing order" })
  else
    let s := callH env.verify_parking_order hi s
    let s := callH env.reduce_parking_order hi s
    let s := callH env.show_parking_order hi s
    if search_type = SearchType.GIRL_SEARCH then (1, s) else
    let s := callH env.prepare_oop_zones hi s
    (1, s)

/-- The two shape-adjustment calls of a controller, in order (`pull_mode` is 1 in the backward
controller and 0 in the forward one). -/
def adjust_search_type (env : Env Ext) (search_type : SearchType) (pull_mode : Int) (hi : Nat)
    (s : State Ext) : SearchType × State Ext :=
  let a := call_adjust env.set_snail_parameters search_type pull_mode hi s
  call_adjust env.set_netlock_parameters a.1 pull_mode hi a.2

/-- The budget multipliers of `packing_search_control` (lines 196-198). -/
def packing_time (search_type : SearchType) (time_allocation : Int) : Int :=
  let time_allocation :=
    if search_type = SearchType.SNAIL_SEARCH then time_allocation * 2 else time_allocation
  let time_allocation :=
    if search_type = SearchType.NETLOCK_SEARCH then time_allocation * 2 else time_allocation
  if search_type = SearchType.DRAGONFLY then time_allocation * 3 else time_allocation

/-- `packing_search_control(b, time_allocation, search_type, t, h)`. -/
def packing_search_control (env : Env Ext) (b : board) (time_allocation : Int)
    (search_type : SearchType) (t hi : Nat) (s : State Ext) : board × State Ext :=
  let s := s.log (Event.packing_search_control time_allocation search_type (s.helpers hi))
  let s := (time0 env s).2
  if time_allocation ≤ 0 then (b, s) else
  let s := s.setHelper hi { s.helpers hi with weighted_search := 1 }
  let a := adjust_search_type env search_type 1 hi s
  let time_allocation := packing_time a.1 time_allocation
  if a.1 = SearchType.REV_SEARCH then
    call_FESS env b time_allocation a.1 t hi a.2
  else if a.1 = SearchType.DRAGONFLY then
    call_dragonfly_search env b time_allocation hi a.2
  else
    call_packing_search env b time_allocation a.1 t hi a.2

/-- `forward_search_control(b, time_allocation, search_type, t, h)`. -/
def forward_search_control (env : Env Ext) (b : board) (time_allocation : Int)
    (search_type : SearchType) (t hi : Nat) (s : State Ext) : board × State Ext :=
  let s := s.log (Event.forward_search_control time_allocation search_type (s.helpers hi))
  let r := time0 env s
  let end_time := r.1 + time_allocation
  let s := r.2
  if time_allocation ≤ 0 then (b, s) else
  let s := s.setHelper hi { s.helpers hi with weighted_search := 1 }
  let a := adjust_search_type env search_type 0 hi s
  if a.1 = SearchType.HF_SEARCH then
    let s := a.2.setHelper hi { a.2.helpers hi with weighted_search := 0 }
    let p := call_FESS env b (Int.tdiv (time_allocation * 3) 4) a.1 t hi s
    if (p.2.helpers hi).level_solved ≠ 0 then p else
    let s := p.2.setHelper hi { p.2.helpers hi with weighted_search := 1 }
    let r := time0 env s
    call_FESS env p.1 (end_time - r.1) a.1 t hi r.2
  else if a.1 = SearchType.REV_SEARCH then
    let p := call_packing_search env b time_allocation a.1 t hi a.2
    if (p.2.helpers hi).perimeter_found = 0 then p else
    let r := time0 env p.2
    call_FESS env p.1 (end_time - r.1) a.1 t hi r.2
  else
    call_FESS env b time_allocation a.1 t hi a.2

/-- The table `backward_search_type` of `solve_with_alg`. -/
def backward_search_type (strategy_index : Fin 8) : SearchType :=
  [SearchType.BASE_SEARCH, SearchType.MAX_DIST_SEARCH2, SearchType.GIRL_SEARCH,
   SearchType.HF_SEARCH, SearchType.BICON_SEARCH, SearchType.MAX_DIST_SEARCH,
   SearchType.REV_SEARCH, SearchType.DRAGONFLY].getD strategy_index.val SearchType.BASE_SEARCH

/-- The table `forward_search_type` of `solve_with_alg`. -/
def forward_search_type (strategy_index : Fin 8) : SearchType :=
  [SearchType.FORWARD_WITH_BASES, SearchType.HF_SEARCH, SearchType.GIRL_SEARCH,
   SearchType.HF_SEARCH, SearchType.HF_SEARCH, SearchType.HF_SEARCH,
   SearchType.REV_SEARCH, SearchType.NAIVE_SEARCH].getD strategy_index.val
    SearchType.FORWARD_WITH_BASES

/-- Lines 287-302 of `solve_with_alg` for a positive budget: the reset, the clock read for
`local_start_time` and the backward phase. Gives `local_start_time`, the arena index `t`,
the board and the state. -/
def solve_with_alg_backward (env : Env Ext) (b : board) (time_allocation : Int)
    (strategy_index : Fin 8) (hi : Nat) (s : State Ext) : Int × Nat × board × State Ext :=
  let s := call_reset_helper env hi s
  let t := (s.helpers hi).my_core
  let search_type := backward_search_type strategy_index
  let r := time0 env s
  let p := packing_search_control env b (Int.tdiv time_allocation 3) search_type t hi r.2
  (r.1, t, p.1, p.2)

/-- `solve_with_alg(b, time_allocation, strategy_index, h)`. An index outside the two tables
is undefined behaviour in the source and is excluded by the type of `strategy_index`. -/
def solve_with_alg (env : Env Ext) (b : board) (time_allocation : Int)
    (strategy_index : Fin 8) (hi : Nat) (s : State Ext) : State Ext :=
  let s := s.log (Event.solve_with_alg time_allocation strategy_index.val)
  if time_allocation ≤ 0 then s else
  let k := solve_with_alg_backward env b time_allocation strategy_index hi s
  let local_start_time := k.1
  let t := k.2.1
  let g := setup_plan_features env (backward_search_type strategy_index) hi k.2.2.2
  if g.1 = 0 then g.2 else
  let r := time0 env g.2
  let remaining_time := local_start_time + time_allocation - r.1
  let search_type := forward_search_type strategy_index
  (forward_search_control env k.2.2.1 remaining_time search_type t hi r.2).2

/-- The struct `work_element`; `h` is the index of the helper pointed to. -/
structure work_element where
  b : board
  time_allocation : Int
  alg : Fin 8
  h : Nat

/-- `solve_work_element(we_in)`. -/
def solve_work_element (env : Env Ext) (we : work_element) (s : State Ext) : State Ext :=
  solve_with_alg env we.b we.time_allocation we.alg we.h s

/-- `prepare_work_element(b, time_allocation, alg, h, we)`: the filled work element. -/
def prepare_work_element (b : board) (time_allocation : Int) (alg : Fin 8) (h : Nat) :
    work_element :=
  { b := b, time_allocation := time_allocation, alg := alg, h := h }

/-- The cast `(int)x` of a `double`: truncation toward zero. The `double` is taken as the exact
rational. -/
def double_to_int (x : ℚ) : Int :=
  Int.tdiv x.num x.den

/-- `get_search_time(ratio)`. -/
def get_search_time (env : Env Ext) (ratio : ℚ) (s : State Ext) : Int × State Ext :=
  let r := time0 env s
  let remaining_time := r.2.start_time + r.2.time_limit - r.1
  (double_to_int ((remaining_time : ℚ) * ratio), r.2)

/-- One iteration of the loop of `solve_with_time_control_single_core` (lines 371-375) up to
and including the read of `helpers[0].level_solved`, which is logged. -/
def single_core_iteration (env : Env Ext) (b : board) (i : Fin 8) (s : State Ext) : State Ext :=
  let r := get_search_time env (1 / (((8 : Int) - (i.val : Int) : Int) : ℚ)) s
  let we := prepare_work_element b r.1 i 0
  let s := solve_work_element env we r.2
  s.log (Event.level_solved (s.helpers 0).level_solved)

/-- The loop of `solve_with_time_control_single_core` (lines 369-376) with `n` iterations
left, that is from `i = 8 - n` on. -/
def single_core_loop (env : Env Ext) (b : board) : Nat → State Ext → State Ext
  | 0, s => s
  | n + 1, s =>
    let s := single_core_iteration env b ⟨7 - n, by omega⟩ s
    if (s.helpers 0).level_solved ≠ 0 then s else single_core_loop env b n s

/-- `solve_with_time_control_single_core(b)`. The global `forced_alg` is `none` for `-1`. -/
def solve_with_time_control_single_core (env : Env Ext) (b : board) (s : State Ext) :
    State Ext :=
  match s.forced_alg with
  | some alg =>
    let r := get_search_time env 1 s
    let we := prepare_work_element b r.1 alg 0
    solve_work_element env we r.2
  | none => single_core_loop env b 8 s

/-- The loop `for (i = 0; i < n; i++) reset_helper(helpers + i)`. -/
def reset_helpers (env : Env Ext) : Nat → State Ext → State Ext
  | 0, s => s
  | n + 1, s => call_reset_helper env n (reset_helpers env n s)

/-- Lines 383-387 of `solve_with_time_control`: the start time and the reset of the helpers. -/
def solve_prologue (env : Env Ext) (s : State Ext) : State Ext :=
  let r := time0 env s
  let s : State Ext := { r.2 with start_time := r.1, any_core_solved := 0 }
  reset_helpers env s.cores_num.toNat s

/-- `solve_with_time_control(b)`. -/
def solve_with_time_control (env : Env Ext) (b : board) (s : State Ext) : State Ext :=
  let s := solve_prologue env s
  let p := preprocess_level env b s
  let s :=
    if p.1 = 1 then
      if p.2.2.cores_num = 1 then solve_with_time_control_single_core env p.2.1 p.2.2
      else p.2.2
    else p.2.2
  let r := time0 env s
  let s : State Ext := { r.2 with end_time := r.1 }
  if s.end_time < s.start_time then { s with end_time := s.start_time } else s

/-! ## `cli_parser.cpp` -/

/-- The characters a call of the library function `fgets` stores when room for `k` more is
left, and the characters it leaves unread: it stops after a newline, at the end of the file,
or when the room is used up. -/
def fgets_chars : Nat → List Char → List Char × List Char
  | 0, cs => ([], cs)
  | _ + 1, [] => ([], [])
  | k + 1, c :: cs =>
    if c = '\n' then ([c], cs)
    else (c :: (fgets_chars k cs).1, (fgets_chars k cs).2)

/-- The library call `fgets(buf, n, fp)` on the characters of the file still unread: the string
stored, of at most `n - 1` characters, and the characters left; `none` for the null pointer,
returned at the end of the file (and for `n = 0`). With `n = 1` the empty string is stored
without a read. -/
def fgets (n : Nat) (cs : List Char) : Option (List Char × List Char) :=
  if n = 0 then none
  else if n = 1 then some ([], cs)
  else if cs = [] then none
  else some (fgets_chars (n - 1) cs)

/-- The read loop of `parse_ascii_to_board` (lines 25-30): the strings stored in the rows of
`lines`, `height_local` and `max_width`. A string is the list of its characters, so `strlen` is
the length of the list. `remove_newline` (`util.h`) is not part of the sources at hand and is a
parameter. The first argument bounds the number of times the loop condition is evaluated; the
body runs only while `height_local < MAX_SIZE`, so `MAX_SIZE + 1` evaluations always reach the
end of the loop (`read_lines_enough`). In the last evaluation with `height_local = MAX_SIZE` the
source lets `fgets` store into a row past the array; that string is not read again and is
dropped here. -/
def read_lines (MAX_SIZE : Nat) (remove_newline : List Char → List Char) :
    Nat → List Char → List (List Char) × Nat × Nat → List (List Char) × Nat × Nat
  | 0, _, st => st
  | k + 1, cs, (lines, height_local, max_width) =>
    match fgets MAX_SIZE cs with
    | none => (lines, height_local, max_width)
    | some (line, rest) =>
      if height_local < MAX_SIZE then
        read_lines MAX_SIZE remove_newline k rest
          (lines ++ [remove_newline line], height_local + 1,
           if (remove_newline line).length > max_width then (remove_newline line).length
           else max_width)
      else (lines, height_local, max_width)

/-- The collaborators of the replay loop (lines 118-153 of `main`) and the tables it reads.
The pathfinder `find_sol_move` writes the steps it found to the buffer and returns their
number; here it returns the steps, `moves_num` being their number. It only reads the board. -/
structure ReplayEnv where
  get_sokoban_position : board → Int × Int
  index_to_y_x : Int → Int × Int
  y_x_to_index : Int → Int → Int
  delta_y : Nat → Int
  delta_x : Nat → Int
  find_sol_move : board → Int → Int → Int → Int → List Char
  count_pushes : List Char → Int → Int
  apply_move : board → move → Int → board
  NORMAL : Int

/-- The arguments of one call of `find_sol_move`. -/
structure PathCall where
  b : board
  start_sok_index : Int
  start_box_index : Int
  end_sok_index : Int
  end_box_index : Int

/-- The locals of the replay loop; `full_lurd` holds the first `pos` characters written, and
`calls` is a ghost log of the pathfinder calls. -/
structure ReplayState where
  full_lurd : List Char
  sim_b : board
  sok_y : Int
  sok_x : Int
  total_steps : Int
  total_pushes : Int
  calls : List PathCall

/-- The copy loop of lines 144-146: each step is stored while `pos < sizeof(full_lurd) - 1`. -/
def append_steps (full_lurd buffer : List Char) : List Char :=
  buffer.foldl (fun acc c => if acc.length < 1024 * 1024 - 1 then acc ++ [c] else acc) full_lurd

/-- The body of the replay loop for one move (lines 130-152). -/
def replay_step (env : ReplayEnv) (st : ReplayState) (m : move) : ReplayState :=
  let start_box_index := m.from_
  let end_box_index := m.to_
  let end_box := env.index_to_y_x end_box_index
  let next_sok_y := end_box.1 + env.delta_y m.sokoban_position
  let next_sok_x := end_box.2 + env.delta_x m.sokoban_position
  let call : PathCall :=
    { b := st.sim_b,
      start_sok_index := env.y_x_to_index st.sok_y st.sok_x,
      start_box_index := start_box_index,
      end_sok_index := env.y_x_to_index next_sok_y next_sok_x,
      end_box_index := end_box_index }
  let buffer := env.find_sol_move call.b call.start_sok_index call.start_box_index
    call.end_sok_index call.end_box_index
  let moves_num : Int := buffer.length
  { full_lurd := append_steps st.full_lurd buffer,
    sim_b := env.apply_move st.sim_b m env.NORMAL,
    sok_y := next_sok_y,
    sok_x := next_sok_x,
    total_steps := st.total_steps + moves_num,
    total_pushes := st.total_pushes + env.count_pushes buffer moves_num,
    calls := st.calls ++ [call] }

/-- The locals before the loop (lines 120-127). -/
def replay_init (env : ReplayEnv) (initial_board : board) : ReplayState :=
  { full_lurd := [],
    sim_b := initial_board,
    sok_y := (env.get_sokoban_position initial_board).1,
    sok_x := (env.get_sokoban_position initial_board).2,
    total_steps := 0,
    total_pushes := 0,
    calls := [] }

/-- The replay loop over the moves `sol_move[0 .. sol_len)`. -/
def replay (env : ReplayEnv) (initial_board : board) (sol_move : List move) : ReplayState :=
  sol_move.foldl (replay_step env) (replay_init env initial_board)

/-! ## Vocabulary of the properties -/

/-- The self-contained search types: those the validation gate lets through without a
packing order (lines 158-164 of `setup_plan_features`). -/
def selfContained (search_type : SearchType) : Bool :=
  search_type = SearchType.HF_SEARCH ∨ search_type = SearchType.BICON_SEARCH ∨
  search_type = SearchType.MAX_DIST_SEARCH ∨ search_type = SearchType.MAX_DIST_SEARCH2 ∨
  search_type = SearchType.REV_SEARCH ∨ search_type = SearchType.NAIVE_SEARCH ∨
  search_type = SearchType.DRAGONFLY

/-- The factor by which the backward controller stretches its allocation: 2 for the snail and
the netlock type, 3 for the dragonfly type, 1 otherwise. -/
def backward_multiplier (search_type : SearchType) : Int :=
  if search_type = SearchType.SNAIL_SEARCH ∨ search_type = SearchType.NETLOCK_SEARCH then 2
  else if search_type = SearchType.DRAGONFLY then 3
  else 1

/-- The engine call expected of the backward controller for a resolved type: the generic
driver for the reverse type, the dragonfly engine for the dragonfly type, the packing engine
for every other type. -/
def backward_engine_call (search_type : SearchType) (time_allocation : Int) : Event :=
  if search_type = SearchType.REV_SEARCH then Event.FESS time_allocation search_type
  else if search_type = SearchType.DRAGONFLY then Event.dragonfly_search time_allocation
  else Event.packing_search time_allocation search_type

/-- The state in which `solve_with_alg` consults the shape-adjustment functions for the
backward type: after the call is logged, the helper reset, the two clock reads and the write
of `weighted_search`. -/
def backward_adjust_state (env : Env Ext) (time_allocation : Int) (strategy_index : Fin 8)
    (hi : Nat) (s : State Ext) : State Ext :=
  let s := call_reset_helper env hi (s.log (Event.solve_with_alg time_allocation strategy_index.val))
  let s := (time0 env s).2
  let s := s.log (Event.packing_search_control (Int.tdiv time_allocation 3)
    (backward_search_type strategy_index) (s.helpers hi))
  let s := (time0 env s).2
  s.setHelper hi { s.helpers hi with weighted_search := 1 }

/-- The backward search type of a strategy as rewritten by the two shape-adjustment
functions inside the backward controller. -/
def rewritten_backward_type (env : Env Ext) (time_allocation : Int) (strategy_index : Fin 8)
    (hi : Nat) (s : State Ext) : SearchType :=
  (adjust_search_type env (backward_search_type strategy_index) 1 hi
    (backward_adjust_state env time_allocation strategy_index hi s)).1

/-- The state right after the backward phase of an attempt with a positive budget. -/
def after_backward (env : Env Ext) (b : board) (time_allocation : Int) (strategy_index : Fin 8)
    (hi : Nat) (s : State Ext) : State Ext :=
  (solve_with_alg_backward env b time_allocation strategy_index hi
    (s.log (Event.solve_with_alg time_allocation strategy_index.val))).2.2.2

/-- The outcome of the call of `sanity_checks` in `preprocess_level` entered in state `s`. -/
def sanity_checks_result (env : Env Ext) (b : board) (s : State Ext) : Int × board × State Ext :=
  call_sanity_checks env b { s with global_fail_reason := "Unknown reason" }

/-- The outcome of the call of `analyse_rooms` in `preprocess_level` entered in state `s`, on
the board and state that the sanity checks and the passes before the room analysis leave. -/
def analyse_rooms_result (env : Env Ext) (b : board) (s : State Ext) : Int × board × State Ext :=
  call_analyse_rooms env (preprocess_before_rooms env (sanity_checks_result env b s).2.1
    (sanity_checks_result env b s).2.2)

/-- Entries logged inside a phase controller: neither the start of an attempt, nor a call of
the forward controller, nor a reset. -/
def Event.inPhase (e : Event) : Prop :=
  e.isAttempt = false ∧ e.isForward = false ∧ e.isReset = false

/-- What the log shows of one strategy attempt in the sequential schedule: the clock read for
the budget, the entries logged inside `solve_with_alg` after its call, and the solved flag the
scheduler read afterwards. -/
structure AttemptRecord where
  now : Int
  inner : List Event
  solved : Int

/-- The log entries of attempt `i`: the clock read, the call of `solve_with_alg` with the budget
`trunc((start_time + time_limit - now) / (8 - i))`, the entries inside, the flag read. -/
def attempt_block (start_time time_limit : Int) (i : Nat) (r : AttemptRecord) : List Event :=
  [Event.time r.now,
   Event.solve_with_alg (Int.tdiv (start_time + time_limit - r.now) (8 - (i : Int))) i]
    ++ r.inner ++ [Event.level_solved r.solved]

/-- The log entries of consecutive attempts `i`, `i + 1`, ... -/
def attempt_blocks (start_time time_limit : Int) : Nat → List AttemptRecord → List Event
  | _, [] => []
  | i, r :: rs =>
    attempt_block start_time time_limit i r ++ attempt_blocks start_time time_limit (i + 1) rs

/-- Does every attempt that the sequential schedule makes from state `s`, with `n` strategies
left, return by its deadline `now_i + budget_i`? -/
def within_deadlines (env : Env Ext) (b : board) : Nat → State Ext → Bool
  | 0, _ => true
  | n + 1, s =>
    decide (env.time (single_core_iteration env b ⟨7 - n, by omega⟩ s).ext
      ≤ env.time s.ext
        + Int.tdiv (s.start_time + s.time_limit - env.time s.ext) (8 - ((7 - n : Nat) : Int)))
    && (if ((single_core_iteration env b ⟨7 - n, by omega⟩ s).helpers 0).level_solved ≠ 0
        then true
        else within_deadlines env b n (single_core_iteration env b ⟨7 - n, by omega⟩ s))

/-- The budget the sequential schedule computes for strategy `i` in state `s`:
`(int)((start_time + time_limit - time(0)) * (1 / (double)(8 - i)))`. -/
def attempt_budget (env : Env Ext) (i : Nat) (s : State Ext) : Int :=
  Int.tdiv (s.start_time + s.time_limit - env.time s.ext) (8 - (i : Int))

/-- The log entries of an attempt of strategy `i` with a positive budget, started by the
sequential schedule in state `s`, up to the entry of its backward controller: the clock read of
`get_search_time`, the call of `solve_with_alg`, the call of `reset_helper`, the clock read for
`local_start_time`, and the call of `packing_search_control` with `reset_helper` applied to
`helpers[0]` of `s`. -/
def attempt_entry (env : Env Ext) (i : Fin 8) (s : State Ext) : List Event :=
  [Event.time (env.time s.ext),
   Event.solve_with_alg (attempt_budget env i.val s) i.val,
   Event.reset_helper 0,
   Event.time (env.time (env.reset_helper (s.helpers 0) s.ext).2),
   Event.packing_search_control (Int.tdiv (attempt_budget env i.val s) 3)
     (backward_search_type i) (env.reset_helper (s.helpers 0) s.ext).1]

/-- The budgets of `n` strategies still to run when `R` seconds remain: each the floor of what
remains divided by the number of strategies still to run. -/
def remaining_budgets : Nat → Int → List Int
  | 0, _ => []
  | n + 1, R => R / ((n : Int) + 1) :: remaining_budgets n (R - R / ((n : Int) + 1))

/-- The starts of attempts `i`, `i + 1`, ... with the given budgets. -/
def budget_events : Nat → List Int → List Event
  | _, [] => []
  | i, t :: ts => Event.solve_with_alg t i :: budget_events (i + 1) ts

/-- Does the sequential schedule, run from state `s` with `n` strategies left, have every
attempt consume exactly its budget and leave the puzzle unsolved? -/
def consumes_budgets (env : Env Ext) (b : board) : Nat → State Ext → Bool
  | 0, _ => true
  | n + 1, s =>
    decide (env.time (single_core_iteration env b ⟨7 - n, by omega⟩ s).ext
      = env.time s.ext
        + Int.tdiv (s.start_time + s.time_limit - env.time s.ext) (8 - ((7 - n : Nat) : Int)))
    && decide (((single_core_iteration env b ⟨7 - n, by omega⟩ s).helpers 0).level_solved = 0)
    && consumes_budgets env b n (single_core_iteration env b ⟨7 - n, by omega⟩ s)

/-! ### Reference for the budgets -/

/-- The budgets `budget_0 .. budget_{i-1}` of a total budget `T` as the recurrence
`budget_i = floor((T - (budget_0 + ... + budget_{i-1})) / (8 - i))` gives them, without
reference to the solver; the division of integers rounds down, the divisor being positive. -/
def first_budgets (T : Int) : Nat → List Int
  | 0 => []
  | i + 1 => first_budgets T i ++ [(T - (first_budgets T i).sum) / (8 - (i : Int))]

/-- The eight budgets of a total budget `T`. -/
def schedule_budgets (T : Int) : List Int :=
  first_budgets T 8

/-! ### Reference for the board-building stage -/

/-- A move to fall back on outside the sequence. -/
def move0 : move := { from_ := 0, to_ := 0, sokoban_position := 0, pull := 0 }

/-- The index of the cell `m.to` offset by the delta of `m.sokoban_position`. -/
def offset_index (env : ReplayEnv) (m : move) : Int :=
  env.y_x_to_index ((env.index_to_y_x m.to_).1 + env.delta_y m.sokoban_position)
    ((env.index_to_y_x m.to_).2 + env.delta_x m.sokoban_position)

/-- The pathfinder call expected for move `i` of the sequence, from a board `b` and a player
at index `sok`. -/
def expected_call_from (env : ReplayEnv) (b : board) (sok : Int) (moves : List move) (i : Nat) :
    PathCall :=
  { b := (moves.take i).foldl (fun b2 m => env.apply_move b2 m env.NORMAL) b,
    start_sok_index := if i = 0 then sok else offset_index env (moves.getD (i - 1) move0),
    start_box_index := (moves.getD i move0).from_,
    end_sok_index := offset_index env (moves.getD i move0),
    end_box_index := (moves.getD i move0).to_ }

/-- The pathfinder call expected for move `i`: the initial board with the earlier moves
applied, the player where the previous move left it (initially where the board has it). -/
def expected_call (env : ReplayEnv) (initial_board : board) (moves : List move) (i : Nat) :
    PathCall :=
  expected_call_from env initial_board
    (env.y_x_to_index (env.get_sokoban_position initial_board).1
      (env.get_sokoban_position initial_board).2) moves i

/-- The pathfinder's answer to a call. -/
def answer (env : ReplayEnv) (c : PathCall) : List Char :=
  env.find_sol_move c.b c.start_sok_index c.start_box_index c.end_sok_index c.end_box_index

/-- The step batches the pathfinder returns for the expected calls, in order. -/
def expected_batches (env : ReplayEnv) (b : board) (sok : Int) (moves : List move) :
    List (List Char) :=
  (List.range moves.length).map fun i => answer env (expected_call_from env b sok moves i)

/-- The step batches the pathfinder returns during the replay of a solution, in order. -/
def replay_batches (env : ReplayEnv) (initial_board : board) (sol_move : List move) :
    List (List Char) :=
  expected_batches env initial_board
    (env.y_x_to_index (env.get_sokoban_position initial_board).1
      (env.get_sokoban_position initial_board).2) sol_move

/-! ## Concrete collaborators for the examples -/

/-- Modelled from the spec: `reset_helper` of `helper.h` clears the fields of the attempt
state; the worker index is its identity and stays. -/
def reset_helper_cleared (h : helper) : helper :=
  { level_solved := 0, sol_move := [], parking_order_num := 0, perimeter_found := 0,
    weighted_search := 0, my_core := h.my_core }

/-- Collaborators that do nothing: the external state is the clock, engines return at once
without a result, the shape-adjustment functions leave the type alone, the preprocessing passes
succeed. -/
def idleEnv : Env Int where
  time := fun e => e
  reset_helper := fun h e => (reset_helper_cleared h, e)
  set_snail_parameters := fun st _ h e => (st, h, e)
  set_netlock_parameters := fun st _ h e => (st, h, e)
  FESS := fun b _ _ _ h e => { b := b, h := h, ext := e }
  packing_search := fun b _ _ _ h e => { b := b, h := h, ext := e }
  dragonfly_search := fun b _ h e => { b := b, h := h, ext := e }
  verify_parking_order := fun h e => (h, e)
  reduce_parking_order := fun h e => (h, e)
  show_parking_order := fun h e => (h, e)
  prepare_oop_zones := fun h e => (h, e)
  sanity_checks := fun b e => (1, b, e)
  clear_deadlock_cache := fun e => e
  clear_k_dist_hash := fun e => e
  clear_perimeter := fun e => e
  turn_decorative_boxes_to_walls := fun b e => (b, e)
  close_holes_in_board := fun b e => (b, e)
  init_inner := fun b e => (b, e)
  init_index_x_y := fun e => e
  keep_boxes_in_inner := fun b e => (b, e)
  save_initial_board := fun b e => (b, e)
  expand_sokoban_cloud := fun b e => (b, e)
  set_forbidden_tunnel := fun e => e
  mark_target_holes := fun b e => (b, e)
  set_distances := fun b e => (b, e)
  analyse_rooms := fun b e => (1, b, e)
  init_rooms_deadlock := fun e => e
  init_hotspots := fun b e => (b, e)
  build_mpdb2 := fun e => e
  build_pull_mpdb2 := fun e => e
  init_envelope_patterns := fun e => e
  init_girl_variables := fun b e => (b, e)
  init_stuck_patterns := fun e => e
  detect_snail_level := fun b e => (b, e)

/-- Collaborators whose engines use up the time they are handed: the external state is the
clock, and each engine call with a positive allocation advances it by that allocation. -/
def busyEnv : Env Int :=
  { idleEnv with
    FESS := fun b t _ _ h e => { b := b, h := h, ext := e + max t 0 }
    packing_search := fun b t _ _ h e => { b := b, h := h, ext := e + max t 0 }
    dragonfly_search := fun b t h e => { b := b, h := h, ext := e + max t 0 } }

/-- Collaborators whose engines use up the time they are handed and never solve the level; the
packing engine finds a packing order and a perimeter. -/
def exactEnv : Env Int :=
  { busyEnv with
    packing_search := fun b t _ _ h e =>
      { b := b, h := { h with parking_order_num := 5, perimeter_found := 1 },
        ext := e + max t 0 } }

/-- The idle collaborators on a snail-shaped level: in the backward controller
(`pull_mode` 1) `set_snail_parameters` answers the snail type whatever the type asked for. -/
def snailEnv : Env Int :=
  { idleEnv with
    set_snail_parameters := fun st pm h e =>
      (if pm = 1 then SearchType.SNAIL_SEARCH else st, h, e) }

/-- The idle collaborators, except that the packing engine finds a packing order of 5 and a
perimeter. -/
def packingEnv : Env Int :=
  { idleEnv with
    packing_search := fun b _ _ _ h e =>
      { b := b, h := { h with parking_order_num := 5, perimeter_found := 1 }, ext := e } }

/-- The helpers with which the backward controller was entered, in order of the calls. -/
def backward_entry_helpers (trace : List Event) : List helper :=
  trace.filterMap fun e =>
    match e with
    | Event.packing_search_control _ _ h => some h
    | _ => none

/-- The idle collaborators, except that the sanity checks reject the board. -/
def rejectEnv : Env Int :=
  { idleEnv with sanity_checks := fun b e => (0, b, e) }

/-- A helper with every field zero. -/
def helper0 : helper :=
  { level_solved := 0, sol_move := [], parking_order_num := 0, perimeter_found := 0,
    weighted_search := 0, my_core := 0 }

/-- The empty board. -/
def board0 : board := fun _ _ => 0

/-- A start state: one core, no forced strategy, a 4 by 4 level, the clock at `clock`, the
given time limit, an empty log. -/
def state0 (clock time_limit : Int) : State Int :=
  { ext := clock, helpers := fun _ => helper0, start_time := clock, time_limit := time_limit,
    end_time := 0, any_core_solved := 0, cores_num := 1, forced_alg := none,
    height := 4, width := 4, global_fail_reason := "", trace := [] }

/-- A helper with leftovers of an earlier level. -/
def staleHelper : helper :=
  { level_solved := 1, sol_move := [], parking_order_num := 7, perimeter_found := 1,
    weighted_search := 1, my_core := 0 }

/-- The start state of `state0` with leftovers of an earlier level in the helpers. -/
def staleState (clock time_limit : Int) : State Int :=
  { state0 clock time_limit with helpers := fun _ => staleHelper }

/-- Collaborators for an example: indices are columns of a single row, the player ends left
of the box, the pathfinder answers one push to the right. -/
def demoReplayEnv : ReplayEnv where
  get_sokoban_position := fun _ => (0, 0)
  index_to_y_x := fun i => (0, i)
  y_x_to_index := fun _ x => x
  delta_y := fun _ => 0
  delta_x := fun _ => -1
  find_sol_move := fun _ _ _ _ _ => ['R']
  count_pushes := fun _ n => n
  apply_move := fun b _ _ => b
  NORMAL := 0

/-! ## Theorems -/

section plumbing
variable (env : Env Ext) (s : State Ext) (hi : Nat)

@[simp]
theorem log_trace (e : Event) : (s.log e).trace = s.trace ++ [e] := rfl
@[simp]
theorem log_helpers (e : Event) : (s.log e).helpers = s.helpers := rfl
@[simp]
theorem log_ext (e : Event) : (s.log e).ext = s.ext := rfl
@[simp]
theorem log_start_time (e : Event) : (s.log e).start_time = s.start_time := rfl
@[simp]
theorem log_time_limit (e : Event) : (s.log e).time_limit = s.time_limit := rfl
@[simp]
theorem setHelper_trace (h : helper) : (s.setHelper hi h).trace = s.trace := rfl
@[simp]
theorem setHelper_start_time (h : helper) : (s.setHelper hi h).start_time = s.start_time := rfl
@[simp]
theorem setHelper_time_limit (h : helper) : (s.setHelper hi h).time_limit = s.time_limit := rfl
@[simp]
theorem time0_trace : (time0 env s).2.trace = s.trace ++ [Event.time (env.time s.ext)] := rfl
@[simp]
theorem time0_start_time : (time0 env s).2.start_time = s.start_time := rfl
@[simp]
theorem time0_time_limit : (time0 env s).2.time_limit = s.time_limit := rfl
@[simp]
theorem time0_helpers : (time0 env s).2.helpers = s.helpers := rfl
@[simp]
theorem time0_ext : (time0 env s).2.ext = s.ext := rfl
@[simp]
theorem time0_val : (time0 env s).1 = env.time s.ext := rfl
@[simp]
theorem adjust_trace (st : SearchType) (pm : Int) :
    (adjust_search_type env st pm hi s).2.trace = s.trace := rfl
@[simp]
theorem adjust_start_time (st : SearchType) (pm : Int) :
    (adjust_search_type env st pm hi s).2.start_time = s.start_time := rfl
@[simp]
theorem adjust_time_limit (st : SearchType) (pm : Int) :
    (adjust_search_type env st pm hi s).2.time_limit = s.time_limit := rfl
@[simp]
theorem call_FESS_trace (b : board) (t : Int) (st : SearchType) (tr : Nat) :
    (call_FESS env b t st tr hi s).2.trace = s.trace ++ [Event.FESS t st] := rfl
@[simp]
theorem call_FESS_start_time (b : board) (t : Int) (st : SearchType) (tr : Nat) :
    (call_FESS env b t st tr hi s).2.start_time = s.start_time := rfl
@[simp]
theorem call_FESS_time_limit (b : board) (t : Int) (st : SearchType) (tr : Nat) :
    (call_FESS env b t st tr hi s).2.time_limit = s.time_limit := rfl
@[simp]
theorem call_packing_search_trace (b : board) (t : Int) (st : SearchType) (tr : Nat) :
    (call_packing_search env b t st tr hi s).2.trace = s.trace ++ [Event.packing_search t st] :=
  rfl
@[simp]
theorem call_packing_search_start_time (b : board) (t : Int) (st : SearchType) (tr : Nat) :
    (call_packing_search env b t st tr hi s).2.start_time = s.start_time := rfl
@[simp]
theorem call_packing_search_time_limit (b : board) (t : Int) (st : SearchType) (tr : Nat) :
    (call_packing_search env b t st tr hi s).2.time_limit = s.time_limit := rfl
@[simp]
theorem call_dragonfly_search_trace (b : board) (t : Int) :
    (call_dragonfly_search env b t hi s).2.trace = s.trace ++ [Event.dragonfly_search t] := rfl
@[simp]
theorem call_dragonfly_search_start_time (b : board) (t : Int) :
    (call_dragonfly_search env b t hi s).2.start_time = s.start_time := rfl
@[simp]
theorem call_dragonfly_search_time_limit (b : board) (t : Int) :
    (call_dragonfly_search env b t hi s).2.time_limit = s.time_limit := rfl
@[simp]
theorem callH_trace (f : helper → Ext → helper × Ext) : (callH f hi s).trace = s.trace := rfl
@[simp]
theorem callH_start_time (f : helper → Ext → helper × Ext) :
    (callH f hi s).start_time = s.start_time := rfl
@[simp]
theorem callH_time_limit (f : helper → Ext → helper × Ext) :
    (callH f hi s).time_limit = s.time_limit := rfl
@[simp]
theorem call_reset_helper_trace :
    (call_reset_helper env hi s).trace = s.trace ++ [Event.reset_helper hi] := rfl
@[simp]
theorem call_reset_helper_start_time :
    (call_reset_helper env hi s).start_time = s.start_time := rfl
@[simp]
theorem call_reset_helper_time_limit :
    (call_reset_helper env hi s).time_limit = s.time_limit := rfl

end plumbing

theorem packing_search_control_trace (env : Env Ext) (b : board) (t : Int) (st : SearchType)
    (tr hi : Nat) (s : State Ext) :
    ∃ l, (packing_search_control env b t st tr hi s).2.trace
        = s.trace ++ Event.packing_search_control t st (s.helpers hi) :: l
      ∧ ∀ e ∈ l, e.inPhase := by
  unfold packing_search_control
  simp only
  split_ifs <;> simp [Event.inPhase, Event.isAttempt, Event.isForward, Event.isReset]

theorem packing_search_control_globals (env : Env Ext) (b : board) (t : Int) (st : SearchType)
    (tr hi : Nat) (s : State Ext) :
    (packing_search_control env b t st tr hi s).2.start_time = s.start_time ∧
    (packing_search_control env b t st tr hi s).2.time_limit = s.time_limit := by
  unfold packing_search_control
  simp only
  split_ifs <;> simp

theorem forward_search_control_trace (env : Env Ext) (b : board) (t : Int) (st : SearchType)
    (tr hi : Nat) (s : State Ext) :
    ∃ l, (forward_search_control env b t st tr hi s).2.trace
        = s.trace ++ Event.forward_search_control t st (s.helpers hi) :: l
      ∧ ∀ e ∈ l, e.inPhase := by
  unfold forward_search_control
  simp only
  split_ifs <;> simp [Event.inPhase, Event.isAttempt, Event.isForward, Event.isReset]

theorem forward_search_control_globals (env : Env Ext) (b : board) (t : Int) (st : SearchType)
    (tr hi : Nat) (s : State Ext) :
    (forward_search_control env b t st tr hi s).2.start_time = s.start_time ∧
    (forward_search_control env b t st tr hi s).2.time_limit = s.time_limit := by
  unfold forward_search_control
  simp only
  split_ifs <;> simp

theorem setup_plan_features_trace (env : Env Ext) (st : SearchType) (hi : Nat) (s : State Ext) :
    (setup_plan_features env st hi s).2.trace = s.trace ++ [Event.setup_plan_features st] ∧
    (setup_plan_features env st hi s).2.start_time = s.start_time ∧
    (setup_plan_features env st hi s).2.time_limit = s.time_limit := by
  unfold setup_plan_features
  simp only
  split_ifs <;> simp

theorem solve_with_alg_backward_trace (env : Env Ext) (b : board) (t : Int) (i : Fin 8)
    (hi : Nat) (s : State Ext) :
    ∃ l, (solve_with_alg_backward env b t i hi s).2.2.2.trace
        = s.trace ++ Event.reset_helper hi :: l
      ∧ ∀ e ∈ l, e.inPhase := by
  obtain ⟨l, hl, hp⟩ := packing_search_control_trace env b (Int.tdiv t 3)
    (backward_search_type i) ((call_reset_helper env hi s).helpers hi).my_core hi
    (time0 env (call_reset_helper env hi s)).2
  refine ⟨Event.time (env.time (call_reset_helper env hi s).ext) :: 
    Event.packing_search_control (Int.tdiv t 3) (backward_search_type i)
      ((call_reset_helper env hi s).helpers hi) :: l, ?_, ?_⟩
  · simp only [solve_with_alg_backward]
    rw [hl]
    simp
  · intro e he
    simp only [List.mem_cons] at he
    rcases he with h | h | h
    · subst h; exact ⟨rfl, rfl, rfl⟩
    · subst h; exact ⟨rfl, rfl, rfl⟩
    · exact hp e h

theorem solve_with_alg_backward_globals (env : Env Ext) (b : board) (t : Int) (i : Fin 8)
    (hi : Nat) (s : State Ext) :
    (solve_with_alg_backward env b t i hi s).2.2.2.start_time = s.start_time ∧
    (solve_with_alg_backward env b t i hi s).2.2.2.time_limit = s.time_limit := by
  simp only [solve_with_alg_backward]
  constructor
  · rw [(packing_search_control_globals _ _ _ _ _ _ _).1]; rfl
  · rw [(packing_search_control_globals _ _ _ _ _ _ _).2]; rfl

theorem solve_with_alg_trace (env : Env Ext) (b : board) (t : Int) (i : Fin 8)
    (hi : Nat) (s : State Ext) :
    ∃ l, (solve_with_alg env b t i hi s).trace = s.trace ++ Event.solve_with_alg t i.val :: l
      ∧ ∀ e ∈ l, e.isAttempt = false := by
  obtain ⟨l₁, h₁, p₁⟩ := solve_with_alg_backward_trace env b t i hi
    (s.log (Event.solve_with_alg t i.val))
  have hg := (setup_plan_features_trace env (backward_search_type i) hi
    (solve_with_alg_backward env b t i hi (s.log (Event.solve_with_alg t i.val))).2.2.2).1
  unfold solve_with_alg
  simp only
  split_ifs with h0 hgate
  · exact ⟨[], by simp, by simp⟩
  · refine ⟨Event.reset_helper hi :: l₁ ++ [Event.setup_plan_features (backward_search_type i)],
      ?_, ?_⟩
    · rw [hg, h₁]; simp
    · intro e he
      simp only [List.cons_append, List.mem_cons, List.mem_append, List.mem_singleton] at he
      rcases he with h | h | h | h
      · subst h; rfl
      · exact (p₁ e h).1
      · subst h; rfl
      · cases h
  · obtain ⟨l₂, h₂, p₂⟩ := forward_search_control_trace env
      (solve_with_alg_backward env b t i hi (s.log (Event.solve_with_alg t i.val))).2.2.1
      ((solve_with_alg_backward env b t i hi (s.log (Event.solve_with_alg t i.val))).1 + t -
        (time0 env (setup_plan_features env (backward_search_type i) hi
          (solve_with_alg_backward env b t i hi
            (s.log (Event.solve_with_alg t i.val))).2.2.2).2).1)
      (forward_search_type i)
      (solve_with_alg_backward env b t i hi (s.log (Event.solve_with_alg t i.val))).2.1 hi
      (time0 env (setup_plan_features env (backward_search_type i) hi
          (solve_with_alg_backward env b t i hi
            (s.log (Event.solve_with_alg t i.val))).2.2.2).2).2
    rw [h₂, time0_trace, hg, h₁]
    refine ⟨_, by simp only [log_trace, List.append_assoc, List.cons_append, List.singleton_append]; rfl, ?_⟩
    intro e he
    simp only [List.cons_append, List.mem_cons, List.mem_append, List.mem_singleton,
      List.nil_append] at he
    rcases he with h | h | h | h | h | h
    · subst h; rfl
    · exact (p₁ e h).1
    · subst h; rfl
    · subst h; rfl
    · subst h; rfl
    · exact (p₂ e h).1

theorem solve_with_alg_globals (env : Env Ext) (b : board) (t : Int) (i : Fin 8)
    (hi : Nat) (s : State Ext) :
    (solve_with_alg env b t i hi s).start_time = s.start_time ∧
    (solve_with_alg env b t i hi s).time_limit = s.time_limit := by
  have hb := solve_with_alg_backward_globals env b t i hi (s.log (Event.solve_with_alg t i.val))
  unfold solve_with_alg
  simp only
  split_ifs
  · exact ⟨rfl, rfl⟩
  · rw [(setup_plan_features_trace _ _ _ _).2.1, (setup_plan_features_trace _ _ _ _).2.2]
    exact hb
  · rw [(forward_search_control_globals _ _ _ _ _ _ _).1,
      (forward_search_control_globals _ _ _ _ _ _ _).2]
    simp only [time0_start_time, time0_time_limit]
    rw [(setup_plan_features_trace _ _ _ _).2.1, (setup_plan_features_trace _ _ _ _).2.2]
    exact hb

theorem double_to_int_of_nonneg (q : ℚ) (hq : 0 ≤ q) : double_to_int q = ⌊q⌋ := by
  unfold double_to_int
  rw [Rat.floor_def, Int.tdiv_eq_ediv (Rat.num_nonneg.2 hq) (Int.natCast_nonneg _)]

theorem double_to_int_neg (q : ℚ) : double_to_int (-q) = -double_to_int q := by
  unfold double_to_int
  simp [Int.neg_tdiv]

theorem double_to_int_div_nonneg (a d : Int) (ha : 0 ≤ a) (hd : 0 < d) :
    double_to_int ((a : ℚ) / (d : ℚ)) = Int.tdiv a d := by
  have hq : (0 : ℚ) ≤ (a : ℚ) / (d : ℚ) :=
    div_nonneg (by exact_mod_cast ha) (by exact_mod_cast hd.le)
  rw [double_to_int_of_nonneg _ hq, Int.tdiv_eq_ediv ha hd.le]
  obtain ⟨n, rfl⟩ := Int.eq_ofNat_of_zero_le hd.le
  exact Rat.floor_intCast_div_natCast a n

theorem double_to_int_div (a d : Int) (hd : 0 < d) :
    double_to_int ((a : ℚ) * (1 / (d : ℚ))) = Int.tdiv a d := by
  rw [mul_one_div]
  rcases le_or_lt 0 a with ha | ha
  · exact double_to_int_div_nonneg a d ha hd
  · have h := double_to_int_div_nonneg (-a) d (by omega) hd
    have e : ((a : ℚ) / (d : ℚ)) = -((((-a : Int) : ℚ)) / (d : ℚ)) := by
      push_cast; ring
    rw [e, double_to_int_neg, h, Int.neg_tdiv, neg_neg]


theorem get_search_time_loop_ratio (env : Env Ext) (i : Fin 8) (s : State Ext) :
    (get_search_time env (1 / (((8 : Int) - (i.val : Int) : Int) : ℚ)) s).1
      = Int.tdiv (s.start_time + s.time_limit - env.time s.ext) (8 - (i.val : Int)) := by
  have hd : (0 : Int) < 8 - (i.val : Int) := by have := i.isLt; omega
  simp only [get_search_time, time0_start_time, time0_time_limit, time0_val]
  exact double_to_int_div _ _ hd

theorem single_core_iteration_trace (env : Env Ext) (b : board) (i : Fin 8) (s : State Ext) :
    ∃ inner, (single_core_iteration env b i s).trace
        = s.trace ++ attempt_block s.start_time s.time_limit i.val
            ⟨env.time s.ext, inner, ((single_core_iteration env b i s).helpers 0).level_solved⟩
      ∧ (∀ e ∈ inner, e.isAttempt = false)
      ∧ (single_core_iteration env b i s).start_time = s.start_time
      ∧ (single_core_iteration env b i s).time_limit = s.time_limit := by
  obtain ⟨l, hl, hp⟩ := solve_with_alg_trace env b
    (get_search_time env (1 / (((8 : Int) - (i.val : Int) : Int) : ℚ)) s).1 i 0
    (get_search_time env (1 / (((8 : Int) - (i.val : Int) : Int) : ℚ)) s).2
  have hg := solve_with_alg_globals env b
    (get_search_time env (1 / (((8 : Int) - (i.val : Int) : Int) : ℚ)) s).1 i 0
    (get_search_time env (1 / (((8 : Int) - (i.val : Int) : Int) : ℚ)) s).2
  refine ⟨l, ?_, hp, ?_, ?_⟩
  · simp only [single_core_iteration, solve_work_element, prepare_work_element, log_trace,
      log_helpers, attempt_block]
    rw [hl, get_search_time_loop_ratio]
    simp [get_search_time]
  · simp only [single_core_iteration, solve_work_element, prepare_work_element,
      log_start_time]
    rw [hg.1]; rfl
  · simp only [single_core_iteration, solve_work_element, prepare_work_element,
      log_time_limit]
    rw [hg.2]; rfl

theorem single_core_iteration_eq (env : Env Ext) (b : board) (i : Fin 8) (s : State Ext) :
    single_core_iteration env b i s
      = (solve_with_alg env b
          (Int.tdiv (s.start_time + s.time_limit - env.time s.ext) (8 - (i.val : Int))) i 0
          (s.log (Event.time (env.time s.ext)))).log
          (Event.level_solved ((solve_with_alg env b
            (Int.tdiv (s.start_time + s.time_limit - env.time s.ext) (8 - (i.val : Int))) i 0
            (s.log (Event.time (env.time s.ext)))).helpers 0).level_solved) := by
  simp only [single_core_iteration, solve_work_element, prepare_work_element]
  rw [get_search_time_loop_ratio]
  rfl

theorem single_core_loop_succ (env : Env Ext) (b : board) (n : Nat) (s : State Ext) :
    single_core_loop env b (n + 1) s
      = if ((single_core_iteration env b ⟨7 - n, by omega⟩ s).helpers 0).level_solved ≠ 0
        then single_core_iteration env b ⟨7 - n, by omega⟩ s
        else single_core_loop env b n (single_core_iteration env b ⟨7 - n, by omega⟩ s) := rfl

theorem single_core_loop_step (env : Env Ext) (b : board) (n : Nat) (hn : n < 8)
    (s : State Ext) :
    ∃ (s2 : State Ext) (inner : List Event),
      s2 = single_core_iteration env b ⟨7 - n, by omega⟩ s
      ∧ s2.trace = s.trace ++ attempt_block s.start_time s.time_limit (7 - n)
            ⟨env.time s.ext, inner, (s2.helpers 0).level_solved⟩
      ∧ (∀ e ∈ inner, e.isAttempt = false)
      ∧ s2.start_time = s.start_time
      ∧ s2.time_limit = s.time_limit
      ∧ ((s2.helpers 0).level_solved ≠ 0 → single_core_loop env b (n + 1) s = s2)
      ∧ ((s2.helpers 0).level_solved = 0 →
          single_core_loop env b (n + 1) s = single_core_loop env b n s2) := by
  obtain ⟨inner, ht, hp, hS, hT⟩ := single_core_iteration_trace env b ⟨7 - n, by omega⟩ s
  refine ⟨single_core_iteration env b ⟨7 - n, by omega⟩ s, inner, rfl, ht, hp, hS, hT, ?_, ?_⟩
  · intro h
    exact (single_core_loop_succ env b n s).trans (if_pos h)
  · intro h
    exact (single_core_loop_succ env b n s).trans (if_neg (not_not.2 h))

theorem single_core_loop_trace (env : Env Ext) (b : board) (I : State Ext → Prop)
    (hI : ∀ (i : Fin 8) (s : State Ext), I s → I (single_core_iteration env b i s)) :
    ∀ (n : Nat) (_ : n < 8) (s : State Ext), I s →
      ∃ (done : List AttemptRecord) (last : AttemptRecord),
        (single_core_loop env b (n + 1) s).trace
          = s.trace ++ attempt_blocks s.start_time s.time_limit (7 - n) (done ++ [last])
        ∧ (∀ r ∈ done ++ [last], ∀ e ∈ r.inner, e.isAttempt = false)
        ∧ (∀ r ∈ done, r.solved = 0)
        ∧ ((single_core_loop env b (n + 1) s).helpers 0).level_solved = last.solved
        ∧ done.length ≤ n
        ∧ (last.solved = 0 → done.length = n)
        ∧ I (single_core_loop env b (n + 1) s)
        ∧ (∀ r ∈ done ++ [last], ∃ s2, I s2 ∧ r.now = env.time s2.ext) := by
  intro n
  induction n with
  | zero =>
    intro hn s hs
    obtain ⟨s2, inner, hdef, ht, hp, _, _, hpos, hneg⟩ := single_core_loop_step env b 0 hn s
    have hs2 : I s2 := hdef ▸ hI _ s hs
    have h0 : single_core_loop env b (0 + 1) s = s2 := by
      by_cases h : (s2.helpers 0).level_solved = 0
      · exact hneg h
      · exact hpos h
    refine ⟨[], ⟨env.time s.ext, inner, (s2.helpers 0).level_solved⟩,
      ?_, ?_, ?_, ?_, ?_, ?_, ?_, ?_⟩
    · rw [h0, ht]
      simp only [List.nil_append, attempt_blocks, List.append_nil]
    · intro r hr e he
      simp only [List.nil_append, List.mem_singleton] at hr
      subst hr
      exact hp e he
    · intro r hr; cases hr
    · rw [h0]
    · exact Nat.le_refl _
    · intro _; rfl
    · rw [h0]; exact hs2
    · intro r hr
      simp only [List.nil_append, List.mem_singleton] at hr
      subst hr
      exact ⟨s, hs, rfl⟩
  | succ n ih =>
    intro hn s hs
    obtain ⟨s2, inner, hdef, ht, hp, hS, hT, hpos, hneg⟩ :=
      single_core_loop_step env b (n + 1) hn s
    have hs2 : I s2 := hdef ▸ hI _ s hs
    clear hdef
    by_cases hsolved : (s2.helpers 0).level_solved = 0
    · obtain ⟨done, last, ht2, hp2, hz, hl, hlen, hfull, hfin, hnow⟩ := ih (by omega) s2 hs2
      have hunf := hneg hsolved
      have hidx : 7 - (n + 1) + 1 = 7 - n := by omega
      refine ⟨⟨env.time s.ext, inner, (s2.helpers 0).level_solved⟩ :: done,
        last, ?_, ?_, ?_, ?_, ?_, ?_, ?_, ?_⟩
      · rw [hunf, ht2, ht, hS, hT]
        simp only [List.cons_append, attempt_blocks, hidx, List.append_assoc]
        rfl
      · intro r hr e he
        simp only [List.cons_append, List.mem_cons] at hr
        rcases hr with h | h
        · subst h; exact hp e he
        · exact hp2 r h e he
      · intro r hr
        simp only [List.mem_cons] at hr
        rcases hr with h | h
        · subst h; exact hsolved
        · exact hz r h
      · rw [hunf]; exact hl
      · simp only [List.length_cons]; omega
      · intro h0
        simp only [List.length_cons]
        rw [hfull h0]
      · rw [hunf]; exact hfin
      · intro r hr
        simp only [List.cons_append, List.mem_cons] at hr
        rcases hr with h | h
        · subst h; exact ⟨s, hs, rfl⟩
        · exact hnow r h
    · have hunf := hpos hsolved
      refine ⟨[], ⟨env.time s.ext, inner, (s2.helpers 0).level_solved⟩,
        ?_, ?_, ?_, ?_, ?_, ?_, ?_, ?_⟩
      · rw [hunf, ht]
        simp only [List.nil_append, attempt_blocks, List.append_nil]
      · intro r hr e he
        simp only [List.nil_append, List.mem_singleton] at hr
        subst hr
        exact hp e he
      · intro r hr; cases hr
      · rw [hunf]
      · exact Nat.zero_le _
      · intro h0; exact absurd h0 hsolved
      · rw [hunf]; exact hs2
      · intro r hr
        simp only [List.nil_append, List.mem_singleton] at hr
        subst hr
        exact ⟨s, hs, rfl⟩

theorem tdiv_le_of_pos (x d : Int) (hd : 0 < d) (h : 0 < Int.tdiv x d) : Int.tdiv x d ≤ x := by
  rcases le_or_lt 0 x with hx | hx
  · rw [Int.tdiv_eq_ediv hx hd.le]
    exact Int.ediv_le_self d hx
  · exfalso
    have h1 : 0 ≤ Int.tdiv (-x) d := Int.tdiv_nonneg (by omega) hd.le
    rw [Int.neg_tdiv] at h1
    omega

theorem solve_with_alg_nonpositive (env : Env Ext) (b : board) (t : Int) (i : Fin 8) (hi : Nat)
    (s : State Ext) (hle : t ≤ 0) :
    solve_with_alg env b t i hi s = s.log (Event.solve_with_alg t i.val) := by
  simp only [solve_with_alg, hle, if_true]

/-- C1. With no forced strategy the sequential schedule logs, and nothing else, the blocks of
attempts 0, 1, ..., k-1 in this order (1 ≤ k ≤ 8): attempt `i` is the clock read `now_i`
followed by the call of `solve_with_alg` for strategy `i` with the budget
`trunc((start_time + time_limit - now_i) / (8 - i))`, the entries logged inside that call (none
of them the start of another attempt) and the read of the solved flag. Every attempt but the
last left the flag clear, the flag on return is the one the last attempt left, and if that is
clear then k = 8. -/
theorem single_core_schedule (env : Env Ext) (b : board) (s : State Ext)
    (hforced : s.forced_alg = none) :
    ∃ (done : List AttemptRecord) (last : AttemptRecord),
      (solve_with_time_control_single_core env b s).trace
        = s.trace ++ attempt_blocks s.start_time s.time_limit 0 (done ++ [last])
      ∧ (∀ r ∈ done ++ [last], ∀ e ∈ r.inner, e.isAttempt = false)
      ∧ (∀ r ∈ done, r.solved = 0)
      ∧ ((solve_with_time_control_single_core env b s).helpers 0).level_solved = last.solved
      ∧ done.length + 1 ≤ 8
      ∧ (last.solved = 0 → done.length + 1 = 8) := by
  obtain ⟨done, last, h1, h2, h3, h4, h5, h6, _, _⟩ :=
    single_core_loop_trace env b (fun _ => True) (fun _ _ _ => trivial) 7 (by omega) s trivial
  have hrun : solve_with_time_control_single_core env b s = single_core_loop env b 8 s := by
    simp only [solve_with_time_control_single_core, hforced]
  refine ⟨done, last, ?_, h2, h3, ?_, by omega, ?_⟩
  · rw [hrun, h1]
  · rw [hrun, h4]
  · intro h0; rw [h6 h0]

/-- Witness for C1: the schedule on the idle collaborators, 80 seconds from clock 0. -/
theorem single_core_schedule_witness :
    (state0 0 80).forced_alg = none ∧
    ∃ (done : List AttemptRecord) (last : AttemptRecord),
      (solve_with_time_control_single_core idleEnv board0 (state0 0 80)).trace
        = (state0 0 80).trace
            ++ attempt_blocks (state0 0 80).start_time (state0 0 80).time_limit 0 (done ++ [last])
      ∧ (∀ r ∈ done ++ [last], ∀ e ∈ r.inner, e.isAttempt = false)
      ∧ (∀ r ∈ done, r.solved = 0)
      ∧ ((solve_with_time_control_single_core idleEnv board0 (state0 0 80)).helpers 0).level_solved
          = last.solved
      ∧ done.length + 1 ≤ 8
      ∧ (last.solved = 0 → done.length + 1 = 8) :=
  ⟨rfl, single_core_schedule idleEnv board0 (state0 0 80) rfl⟩

theorem within_deadlines_succ (env : Env Ext) (b : board) (n : Nat) (s : State Ext) :
    within_deadlines env b (n + 1) s
      = (decide (env.time (single_core_iteration env b ⟨7 - n, by omega⟩ s).ext
          ≤ env.time s.ext
            + Int.tdiv (s.start_time + s.time_limit - env.time s.ext)
                (8 - ((7 - n : Nat) : Int)))
        && (if ((single_core_iteration env b ⟨7 - n, by omega⟩ s).helpers 0).level_solved ≠ 0
            then true
            else within_deadlines env b n
              (single_core_iteration env b ⟨7 - n, by omega⟩ s))) := rfl

theorem single_core_iteration_flag_noop (env : Env Ext) (b : board) (i : Fin 8) (s : State Ext)
    (hle : Int.tdiv (s.start_time + s.time_limit - env.time s.ext) (8 - (i.val : Int)) ≤ 0) :
    ((single_core_iteration env b i s).helpers 0).level_solved = (s.helpers 0).level_solved := by
  rw [single_core_iteration_eq, solve_with_alg_nonpositive env b _ i 0 _ hle]
  rfl

theorem single_core_loop_deadline (env : Env Ext) (b : board) :
    ∀ (n : Nat) (_ : n < 8) (s : State Ext),
      (s.helpers 0).level_solved = 0 → within_deadlines env b (n + 1) s = true →
      env.time (single_core_loop env b (n + 1) s).ext ≤ s.start_time + s.time_limit := by
  intro n
  induction n with
  | zero =>
    intro hn s _ hrun
    obtain ⟨s2, _, hdef, _, _, _, _, hpos, hneg⟩ := single_core_loop_step env b 0 hn s
    have h0 : single_core_loop env b (0 + 1) s = s2 := by
      by_cases h : (s2.helpers 0).level_solved = 0
      · exact hneg h
      · exact hpos h
    rw [within_deadlines_succ, Bool.and_eq_true, decide_eq_true_eq] at hrun
    have h1 := hrun.1
    rw [← hdef] at h1
    rw [h0]
    have h7 : ((8 : Int) - ((7 - 0 : Nat) : Int)) = 1 := by norm_num
    rw [h7, Int.tdiv_one] at h1
    omega
  | succ n ih =>
    intro hn s hclear hrun
    obtain ⟨s2, _, hdef, _, _, hS, hT, hpos, hneg⟩ := single_core_loop_step env b (n + 1) hn s
    rw [within_deadlines_succ, Bool.and_eq_true, decide_eq_true_eq] at hrun
    obtain ⟨h1, h2⟩ := hrun
    rw [← hdef] at h1 h2
    have hd : (0 : Int) < 8 - ((7 - (n + 1) : Nat) : Int) := by omega
    by_cases hsolved : (s2.helpers 0).level_solved = 0
    · rw [hneg hsolved]
      have h3 : within_deadlines env b (n + 1) s2 = true := by
        simpa [hsolved] using h2
      have := ih (by omega) s2 hsolved h3
      rw [hS, hT] at this
      exact this
    · rw [hpos hsolved]
      rcases le_or_lt (Int.tdiv (s.start_time + s.time_limit - env.time s.ext)
          (8 - ((7 - (n + 1) : Nat) : Int))) 0 with hle | hgt
      · exfalso
        apply hsolved
        rw [hdef, single_core_iteration_flag_noop env b _ s hle]
        exact hclear
      · have := tdiv_le_of_pos _ _ hd hgt
        omega

/-- C2. First, whenever a budget computed by the schedule is positive, its deadline
`now + budget` is at most `start_time + time_limit`. Second, let the schedule be entered with
the solved flag clear and the clock not before `start_time`; if every attempt it makes returns
by its own deadline `now_i + budget_i`, then the clock on return from the last attempt is at
most `start_time + time_limit`, and the time consumed from entry to return (the consumed times
of the attempts add up to it, the clock standing still between attempts) is at most
`time_limit`. -/
theorem schedule_within_budget (env : Env Ext) (b : board) (s : State Ext)
    (hforced : s.forced_alg = none)
    (hclear : (s.helpers 0).level_solved = 0)
    (hstart : s.start_time ≤ env.time s.ext)
    (hrun : within_deadlines env b 8 s = true) :
    (∀ (i : Fin 8) (s2 : State Ext),
        0 < (get_search_time env (1 / (((8 : Int) - (i.val : Int) : Int) : ℚ)) s2).1 →
        env.time s2.ext + (get_search_time env (1 / (((8 : Int) - (i.val : Int) : Int) : ℚ)) s2).1
          ≤ s2.start_time + s2.time_limit)
    ∧ env.time (solve_with_time_control_single_core env b s).ext
        ≤ s.start_time + s.time_limit
    ∧ env.time (solve_with_time_control_single_core env b s).ext - env.time s.ext
        ≤ s.time_limit := by
  have hrun2 : solve_with_time_control_single_core env b s = single_core_loop env b (7 + 1) s := by
    simp only [solve_with_time_control_single_core, hforced]
  have hfin := single_core_loop_deadline env b 7 (by omega) s hclear hrun
  rw [← hrun2] at hfin
  refine ⟨?_, hfin, by omega⟩
  intro i s2 hpos
  have hd : (0 : Int) < 8 - (i.val : Int) := by have := i.isLt; omega
  rw [get_search_time_loop_ratio] at hpos ⊢
  have := tdiv_le_of_pos _ _ hd hpos
  omega

/-- Witness for C2: 80 seconds from clock 0 with engines that use up the time they are handed;
the schedule returns at clock 80. -/
theorem schedule_within_budget_witness :
    ((state0 0 80).forced_alg = none
      ∧ ((state0 0 80).helpers 0).level_solved = 0
      ∧ (state0 0 80).start_time ≤ busyEnv.time (state0 0 80).ext
      ∧ within_deadlines busyEnv board0 8 (state0 0 80) = true)
    ∧ busyEnv.time (solve_with_time_control_single_core busyEnv board0 (state0 0 80)).ext
        ≤ (state0 0 80).start_time + (state0 0 80).time_limit :=
  ⟨⟨rfl, rfl, by decide, by decide!⟩,
   (schedule_within_budget busyEnv board0 (state0 0 80) rfl rfl (by decide) (by decide!)).2.1⟩

theorem solve_with_alg_pos (env : Env Ext) (b : board) (t : Int) (i : Fin 8) (hi : Nat)
    (s : State Ext) (ht : 0 < t) :
    solve_with_alg env b t i hi s
      = if (setup_plan_features env (backward_search_type i) hi
              (after_backward env b t i hi s)).1 = 0
        then (setup_plan_features env (backward_search_type i) hi
              (after_backward env b t i hi s)).2
        else (forward_search_control env
              (solve_with_alg_backward env b t i hi
                (s.log (Event.solve_with_alg t i.val))).2.2.1
              ((solve_with_alg_backward env b t i hi
                (s.log (Event.solve_with_alg t i.val))).1 + t
                - env.time (setup_plan_features env (backward_search_type i) hi
                    (after_backward env b t i hi s)).2.ext)
              (forward_search_type i)
              (solve_with_alg_backward env b t i hi
                (s.log (Event.solve_with_alg t i.val))).2.1 hi
              (time0 env (setup_plan_features env (backward_search_type i) hi
                  (after_backward env b t i hi s)).2).2).2 := by
  simp only [solve_with_alg, not_le.2 ht, if_false, after_backward, time0_val]

theorem selfContained_false_iff (st : SearchType) :
    selfContained st = false ↔
      st ≠ SearchType.HF_SEARCH ∧ st ≠ SearchType.BICON_SEARCH ∧
      st ≠ SearchType.MAX_DIST_SEARCH ∧ st ≠ SearchType.MAX_DIST_SEARCH2 ∧
      st ≠ SearchType.REV_SEARCH ∧ st ≠ SearchType.NAIVE_SEARCH ∧
      st ≠ SearchType.DRAGONFLY := by
  simp [selfContained]

theorem setup_plan_features_skip (env : Env Ext) (st : SearchType) (hi : Nat) (s : State Ext)
    (h : selfContained st = true) :
    setup_plan_features env st hi s = (1, s.log (Event.setup_plan_features st)) := by
  unfold setup_plan_features
  simp only
  split_ifs <;> first | rfl | (exfalso; simp_all [selfContained])

theorem setup_plan_features_fail (env : Env Ext) (st : SearchType) (hi : Nat) (s : State Ext)
    (h : selfContained st = false) (hp : (s.helpers hi).parking_order_num = 0) :
    setup_plan_features env st hi s
      = (0, { s.log (Event.setup_plan_features st) with
                global_fail_reason := "Could not find packing order" }) := by
  obtain ⟨h1, h2, h3, h4, h5, h6, h7⟩ := (selfContained_false_iff st).1 h
  simp only [setup_plan_features, h1, h2, h3, h4, h5, h6, h7, if_false, log_helpers, hp, if_true]

theorem setup_plan_features_pass (env : Env Ext) (st : SearchType) (hi : Nat) (s : State Ext)
    (hp : (s.helpers hi).parking_order_num ≠ 0) :
    (setup_plan_features env st hi s).1 = 1 := by
  unfold setup_plan_features
  simp only [log_helpers, hp, if_false]
  split_ifs <;> rfl

theorem setup_plan_features_zero_iff (env : Env Ext) (st : SearchType) (hi : Nat)
    (s : State Ext) :
    (setup_plan_features env st hi s).1 = 0
      ↔ selfContained st = false ∧ (s.helpers hi).parking_order_num = 0 := by
  constructor
  · intro h
    cases hsc : selfContained st
    · refine ⟨rfl, ?_⟩
      by_contra hp
      rw [setup_plan_features_pass env st hi s hp] at h
      exact absurd h (by decide)
    · rw [setup_plan_features_skip env st hi s hsc] at h
      exact absurd h one_ne_zero
  · rintro ⟨h, hp⟩
    rw [setup_plan_features_fail env st hi s h hp]

theorem packing_time_eq (st : SearchType) (t : Int) :
    packing_time st t = backward_multiplier st * t := by
  unfold packing_time backward_multiplier
  split_ifs <;> simp_all <;> ring

theorem backward_multiplier_bound (st : SearchType) (B : Int) (hB : 0 ≤ B) :
    backward_multiplier st * (B / 3) ≤ B := by
  unfold backward_multiplier
  split_ifs <;> omega

theorem after_backward_trace (env : Env Ext) (b : board) (B : Int) (i : Fin 8) (hi : Nat)
    (s : State Ext) (hB : 3 ≤ B) :
    (after_backward env b B i hi s).trace
      = s.trace ++
        [Event.solve_with_alg B i.val,
         Event.reset_helper hi,
         Event.time (env.time (env.reset_helper (s.helpers hi) s.ext).2),
         Event.packing_search_control (B / 3) (backward_search_type i)
           (env.reset_helper (s.helpers hi) s.ext).1,
         Event.time (env.time (env.reset_helper (s.helpers hi) s.ext).2),
         backward_engine_call (rewritten_backward_type env B i hi s)
           (backward_multiplier (rewritten_backward_type env B i hi s) * (B / 3))] := by
  have h3 : Int.tdiv B 3 = B / 3 := Int.tdiv_eq_ediv (by omega) (by decide)
  have hpos : ¬ (Int.tdiv B 3 ≤ 0) := by rw [h3]; omega
  rw [← packing_time_eq, ← h3]
  simp only [after_backward, solve_with_alg_backward, packing_search_control, hpos, if_false,
    rewritten_backward_type, backward_adjust_state, backward_engine_call]
  split_ifs <;> simp [call_reset_helper, callH]


theorem countP_isForward_inPhase (l : List Event) (h : ∀ e ∈ l, e.inPhase) :
    l.countP Event.isForward = 0 := by
  rw [List.countP_eq_zero]
  intro e he
  simp [(h e he).2.1]

theorem after_backward_countP (env : Env Ext) (b : board) (t : Int) (i : Fin 8) (hi : Nat)
    (s : State Ext) :
    (after_backward env b t i hi s).trace.countP Event.isForward
      = s.trace.countP Event.isForward := by
  obtain ⟨l, hl, hp⟩ := solve_with_alg_backward_trace env b t i hi
    (s.log (Event.solve_with_alg t i.val))
  unfold after_backward
  rw [hl]
  simp [List.countP_append, List.countP_cons, Event.isForward, countP_isForward_inPhase l hp]

theorem forward_search_control_countP (env : Env Ext) (b : board) (t : Int) (st : SearchType)
    (tr hi : Nat) (s : State Ext) :
    (forward_search_control env b t st tr hi s).2.trace.countP Event.isForward
      = s.trace.countP Event.isForward + 1 := by
  obtain ⟨l, hl, hp⟩ := forward_search_control_trace env b t st tr hi s
  rw [hl]
  simp [List.countP_append, List.countP_cons, Event.isForward, countP_isForward_inPhase l hp]

theorem solve_with_alg_abort (env : Env Ext) (b : board) (t : Int) (i : Fin 8) (hi : Nat)
    (s : State Ext) (ht : 0 < t)
    (hself : selfContained (backward_search_type i) = false)
    (hpon : ((after_backward env b t i hi s).helpers hi).parking_order_num = 0) :
    solve_with_alg env b t i hi s
      = { (after_backward env b t i hi s).log
            (Event.setup_plan_features (backward_search_type i)) with
          global_fail_reason := "Could not find packing order" } := by
  rw [solve_with_alg_pos env b t i hi s ht,
    setup_plan_features_fail env _ hi _ hself hpon]
  simp only [if_true]

theorem solve_with_alg_proceed (env : Env Ext) (b : board) (t : Int) (i : Fin 8) (hi : Nat)
    (s : State Ext) (ht : 0 < t)
    (hgate : (setup_plan_features env (backward_search_type i) hi
        (after_backward env b t i hi s)).1 ≠ 0) :
    (solve_with_alg env b t i hi s).trace.countP Event.isForward
      = s.trace.countP Event.isForward + 1 := by
  rw [solve_with_alg_pos env b t i hi s ht, if_neg hgate, forward_search_control_countP,
    time0_trace, (setup_plan_features_trace env _ hi _).1]
  simp [List.countP_append, List.countP_cons, Event.isForward, after_backward_countP]

/-- C3. For a positive budget, if the backward search type of the strategy is not
self-contained and `parking_order_num` is 0 after the backward phase, then `setup_plan_features`
returns 0 and `solve_with_alg` returns right there: the state is the one the backward phase
left, with the gate logged and the failure reason set, and the log holds as many calls of
`forward_search_control` as before the attempt. -/
theorem gate_failure_skips_forward (env : Env Ext) (b : board) (t : Int) (i : Fin 8) (hi : Nat)
    (s : State Ext) (ht : 0 < t)
    (hself : selfContained (backward_search_type i) = false)
    (hpon : ((after_backward env b t i hi s).helpers hi).parking_order_num = 0) :
    (setup_plan_features env (backward_search_type i) hi (after_backward env b t i hi s)).1 = 0
    ∧ solve_with_alg env b t i hi s
        = { (after_backward env b t i hi s).log
              (Event.setup_plan_features (backward_search_type i)) with
            global_fail_reason := "Could not find packing order" }
    ∧ (solve_with_alg env b t i hi s).trace.countP Event.isForward
        = s.trace.countP Event.isForward := by
  refine ⟨?_, solve_with_alg_abort env b t i hi s ht hself hpon, ?_⟩
  · rw [setup_plan_features_fail env _ hi _ hself hpon]
  · rw [solve_with_alg_abort env b t i hi s ht hself hpon]
    simp [List.countP_append, List.countP_cons, Event.isForward, after_backward_countP]

/-- Witness for C3: strategy 0 with 9 seconds on the idle collaborators, whose packing engine
finds no packing order. -/
theorem gate_failure_skips_forward_witness :
    ((0 : Int) < 9 ∧ selfContained (backward_search_type 0) = false
      ∧ ((after_backward idleEnv board0 9 0 0 (state0 0 60)).helpers 0).parking_order_num = 0)
    ∧ (solve_with_alg idleEnv board0 9 0 0 (state0 0 60)).trace.countP Event.isForward
        = (state0 0 60).trace.countP Event.isForward :=
  ⟨⟨by decide, by decide, by decide⟩,
   (gate_failure_skips_forward idleEnv board0 9 0 0 (state0 0 60) (by decide) (by decide)
      (by decide)).2.2⟩


theorem after_backward_trace_small (env : Env Ext) (b : board) (B : Int) (i : Fin 8) (hi : Nat)
    (s : State Ext) (h0 : 0 < B) (hB : B < 3) :
    (after_backward env b B i hi s).trace
      = s.trace ++
        [Event.solve_with_alg B i.val,
         Event.reset_helper hi,
         Event.time (env.time (env.reset_helper (s.helpers hi) s.ext).2),
         Event.packing_search_control 0 (backward_search_type i)
           (env.reset_helper (s.helpers hi) s.ext).1,
         Event.time (env.time (env.reset_helper (s.helpers hi) s.ext).2)] := by
  have h3 : Int.tdiv B 3 = 0 := by
    rw [Int.tdiv_eq_ediv (by omega) (by decide)]; omega
  simp only [after_backward, solve_with_alg_backward, packing_search_control, h3, le_refl,
    if_true]
  simp [call_reset_helper, callH]

theorem solve_with_alg_trace_split (env : Env Ext) (b : board) (t : Int) (i : Fin 8) (hi : Nat)
    (s : State Ext) (ht : 0 < t) :
    ∃ rest, (solve_with_alg env b t i hi s).trace
      = (after_backward env b t i hi s).trace
          ++ Event.setup_plan_features (backward_search_type i) :: rest := by
  rw [solve_with_alg_pos env b t i hi s ht]
  split_ifs with hg
  · exact ⟨[], (setup_plan_features_trace env _ hi _).1⟩
  · obtain ⟨l, hl, _⟩ := forward_search_control_trace env
      (solve_with_alg_backward env b t i hi (s.log (Event.solve_with_alg t i.val))).2.2.1
      ((solve_with_alg_backward env b t i hi (s.log (Event.solve_with_alg t i.val))).1 + t
        - env.time (setup_plan_features env (backward_search_type i) hi
            (after_backward env b t i hi s)).2.ext)
      (forward_search_type i)
      (solve_with_alg_backward env b t i hi (s.log (Event.solve_with_alg t i.val))).2.1 hi
      (time0 env (setup_plan_features env (backward_search_type i) hi
          (after_backward env b t i hi s)).2).2
    rw [hl, time0_trace, (setup_plan_features_trace env _ hi _).1]
    exact ⟨_, by simp only [List.append_assoc, List.singleton_append, List.cons_append]; rfl⟩

/-- C9 (as amended). For a budget `B > 0` the backward phase is allocated `B / 3` rounded
down. If `B ≥ 3`, the log of the attempt up to the validation gate is: the call, the reset, the
clock read, the entry of the backward controller with `B / 3`, its clock read, and exactly one
engine call, with time `m * (B / 3) ≤ B`, where `m` is 2 for the snail and the netlock type,
3 for the dragonfly type and 1 otherwise, and the engine is the generic driver for the reverse
type, the dragonfly engine for the dragonfly type and the packing engine otherwise, all decided
on the type as rewritten by the shape-adjustment functions. If `B < 3` the allocation is 0 and
the backward controller returns before any engine call. -/
theorem backward_phase_budget (env : Env Ext) (b : board) (B : Int) (i : Fin 8) (hi : Nat)
    (s : State Ext) (hB : 0 < B) :
    Int.tdiv B 3 = B / 3
    ∧ (3 ≤ B →
        (∃ rest, (solve_with_alg env b B i hi s).trace
          = s.trace ++
            [Event.solve_with_alg B i.val,
             Event.reset_helper hi,
             Event.time (env.time (env.reset_helper (s.helpers hi) s.ext).2),
             Event.packing_search_control (B / 3) (backward_search_type i)
               (env.reset_helper (s.helpers hi) s.ext).1,
             Event.time (env.time (env.reset_helper (s.helpers hi) s.ext).2),
             backward_engine_call (rewritten_backward_type env B i hi s)
               (backward_multiplier (rewritten_backward_type env B i hi s) * (B / 3))]
            ++ Event.setup_plan_features (backward_search_type i) :: rest)
        ∧ backward_multiplier (rewritten_backward_type env B i hi s) * (B / 3) ≤ B)
    ∧ (B < 3 →
        ∃ rest, (solve_with_alg env b B i hi s).trace
          = s.trace ++
            [Event.solve_with_alg B i.val,
             Event.reset_helper hi,
             Event.time (env.time (env.reset_helper (s.helpers hi) s.ext).2),
             Event.packing_search_control 0 (backward_search_type i)
               (env.reset_helper (s.helpers hi) s.ext).1,
             Event.time (env.time (env.reset_helper (s.helpers hi) s.ext).2)]
            ++ Event.setup_plan_features (backward_search_type i) :: rest) := by
  obtain ⟨rest, hrest⟩ := solve_with_alg_trace_split env b B i hi s hB
  refine ⟨Int.tdiv_eq_ediv (by omega) (by decide), ?_, ?_⟩
  · intro h3
    refine ⟨⟨rest, ?_⟩, backward_multiplier_bound _ B (by omega)⟩
    rw [hrest, after_backward_trace env b B i hi s h3]
  · intro h3
    refine ⟨rest, ?_⟩
    rw [hrest, after_backward_trace_small env b B i hi s hB h3]

/-- Witness for C9: strategy 7 (dragonfly) with 9 seconds on the idle collaborators. -/
theorem backward_phase_budget_witness :
    (0 : Int) < 9
    ∧ backward_multiplier (rewritten_backward_type idleEnv 9 7 0 (state0 0 60)) * (9 / 3) ≤ 9 :=
  ⟨by decide,
   ((backward_phase_budget idleEnv board0 9 7 0 (state0 0 60) (by decide)).2.1 (by decide)).2⟩

/-- Counterexample for C9 as stated: with a budget of 2 seconds the backward phase of
strategy 7 is allocated 0 and no backward engine is invoked; the only engine call of the attempt
is the forward one. -/
theorem backward_phase_small_budget_counterexample :
    (0 : Int) < 2
    ∧ (solve_with_alg idleEnv board0 2 7 0 (state0 0 60)).trace
        = [Event.solve_with_alg 2 7,
           Event.reset_helper 0,
           Event.time 0,
           Event.packing_search_control 0 SearchType.DRAGONFLY helper0,
           Event.time 0,
           Event.setup_plan_features SearchType.DRAGONFLY,
           Event.time 0,
           Event.forward_search_control 2 SearchType.NAIVE_SEARCH helper0,
           Event.time 0,
           Event.FESS 2 SearchType.NAIVE_SEARCH] :=
  ⟨by decide, by decide⟩


/-- C10 (as amended). For a positive budget the validation gate is called, right after the
backward phase, with the backward search type of the strategy table, whatever the
shape-adjustment functions made of it inside the backward controller. If that table type is
self-contained the gate returns 1 without touching the state (validation is skipped) and the
forward controller is called once; if it is not, the forward controller is called once when
`parking_order_num` is not 0 after the backward phase, and when it is 0 the attempt aborts: no
call of the forward controller, and the failure reason is set. The gate returns 0 exactly when
the table type is not self-contained and `parking_order_num` is 0. -/
theorem gate_decides_on_table_type (env : Env Ext) (b : board) (t : Int) (i : Fin 8) (hi : Nat)
    (s : State Ext) (ht : 0 < t) :
    (∃ rest, (solve_with_alg env b t i hi s).trace
      = (after_backward env b t i hi s).trace
          ++ Event.setup_plan_features (backward_search_type i) :: rest)
    ∧ ((setup_plan_features env (backward_search_type i) hi
          (after_backward env b t i hi s)).1 = 0
        ↔ selfContained (backward_search_type i) = false
          ∧ ((after_backward env b t i hi s).helpers hi).parking_order_num = 0)
    ∧ (selfContained (backward_search_type i) = true →
        setup_plan_features env (backward_search_type i) hi (after_backward env b t i hi s)
          = (1, (after_backward env b t i hi s).log
                  (Event.setup_plan_features (backward_search_type i)))
        ∧ (solve_with_alg env b t i hi s).trace.countP Event.isForward
            = s.trace.countP Event.isForward + 1)
    ∧ (selfContained (backward_search_type i) = false →
        ((after_backward env b t i hi s).helpers hi).parking_order_num ≠ 0 →
        (solve_with_alg env b t i hi s).trace.countP Event.isForward
            = s.trace.countP Event.isForward + 1)
    ∧ (selfContained (backward_search_type i) = false →
        ((after_backward env b t i hi s).helpers hi).parking_order_num = 0 →
        (solve_with_alg env b t i hi s).trace.countP Event.isForward
            = s.trace.countP Event.isForward
        ∧ (solve_with_alg env b t i hi s).global_fail_reason
            = "Could not find packing order") := by
  refine ⟨solve_with_alg_trace_split env b t i hi s ht,
    setup_plan_features_zero_iff env _ hi _, ?_, ?_, ?_⟩
  · intro hself
    refine ⟨setup_plan_features_skip env _ hi _ hself, ?_⟩
    apply solve_with_alg_proceed env b t i hi s ht
    rw [setup_plan_features_skip env _ hi _ hself]
    exact one_ne_zero
  · intro _ hpon
    apply solve_with_alg_proceed env b t i hi s ht
    rw [setup_plan_features_pass env _ hi _ hpon]
    exact one_ne_zero
  · intro hself hpon
    rw [solve_with_alg_abort env b t i hi s ht hself hpon]
    refine ⟨?_, rfl⟩
    simp [List.countP_append, List.countP_cons, Event.isForward, after_backward_countP]

/-- Witness for C10: strategy 1 with 9 seconds on a snail-shaped level. -/
theorem gate_decides_on_table_type_witness :
    (0 : Int) < 9
    ∧ (selfContained (backward_search_type 1) = true →
        (solve_with_alg snailEnv board0 9 1 0 (state0 0 60)).trace.countP Event.isForward
          = (state0 0 60).trace.countP Event.isForward + 1) :=
  ⟨by decide,
   fun h => ((gate_decides_on_table_type snailEnv board0 9 1 0 (state0 0 60)
      (by decide)).2.2.1 h).2⟩

/-- Counterexample for C10 as stated: on a snail-shaped level the backward type of strategy 1
is rewritten to the snail type, which is not self-contained, and the backward phase leaves
`parking_order_num` at 0; the attempt is not aborted, the forward controller runs. -/
theorem gate_ignores_rewritten_type_counterexample :
    rewritten_backward_type snailEnv 9 1 0 (state0 0 60) = SearchType.SNAIL_SEARCH
    ∧ selfContained SearchType.SNAIL_SEARCH = false
    ∧ ((after_backward snailEnv board0 9 1 0 (state0 0 60)).helpers 0).parking_order_num = 0
    ∧ (solve_with_alg snailEnv board0 9 1 0 (state0 0 60)).trace
        = [Event.solve_with_alg 9 1,
           Event.reset_helper 0,
           Event.time 0,
           Event.packing_search_control 3 SearchType.MAX_DIST_SEARCH2 helper0,
           Event.time 0,
           Event.packing_search 6 SearchType.SNAIL_SEARCH,
           Event.setup_plan_features SearchType.MAX_DIST_SEARCH2,
           Event.time 0,
           Event.forward_search_control 9 SearchType.HF_SEARCH
             { helper0 with weighted_search := 1 },
           Event.time 0,
           Event.FESS 6 SearchType.HF_SEARCH,
           Event.time 0,
           Event.FESS 9 SearchType.HF_SEARCH] :=
  ⟨by decide, by decide, by decide, by decide⟩

theorem solve_with_alg_trace_reset (env : Env Ext) (b : board) (t : Int) (i : Fin 8) (hi : Nat)
    (s : State Ext) (ht : 0 < t) :
    ∃ rest, (solve_with_alg env b t i hi s).trace
      = s.trace ++
        [Event.solve_with_alg t i.val,
         Event.reset_helper hi,
         Event.time (env.time (env.reset_helper (s.helpers hi) s.ext).2),
         Event.packing_search_control (Int.tdiv t 3) (backward_search_type i)
           (env.reset_helper (s.helpers hi) s.ext).1] ++ rest := by
  obtain ⟨rest, hrest⟩ := solve_with_alg_trace_split env b t i hi s ht
  obtain ⟨l, hl, _⟩ := packing_search_control_trace env b (Int.tdiv t 3)
    (backward_search_type i)
    ((call_reset_helper env hi (s.log (Event.solve_with_alg t i.val))).helpers hi).my_core hi
    (time0 env (call_reset_helper env hi (s.log (Event.solve_with_alg t i.val)))).2
  refine ⟨l ++ Event.setup_plan_features (backward_search_type i) :: rest, ?_⟩
  rw [hrest]
  simp only [after_backward, solve_with_alg_backward]
  rw [hl]
  simp [call_reset_helper, callH]

/-- Counterexample for C7 as stated: attempt 0 leaves a parking order count of 5, the
perimeter-found flag and the weighted-search flag set, yet attempt 1 enters its backward
phase with all three cleared; in the whole solve `reset_helper` is called nine times, once at
the start and once per attempt. -/
theorem attempt_state_reset_counterexample :
    ((single_core_iteration packingEnv board0 0 (state0 0 80)).helpers 0).parking_order_num = 5
    ∧ ((single_core_iteration packingEnv board0 0 (state0 0 80)).helpers 0).perimeter_found = 1
    ∧ ((single_core_iteration packingEnv board0 0 (state0 0 80)).helpers 0).weighted_search = 1
    ∧ backward_entry_helpers
        ((single_core_iteration packingEnv board0 1
          (single_core_iteration packingEnv board0 0 (state0 0 80))).trace.drop
            (single_core_iteration packingEnv board0 0 (state0 0 80)).trace.length)
        = [helper0]
    ∧ ((solve_with_time_control packingEnv board0 (state0 0 80)).trace.filter
        Event.isReset).length = 9 :=
  ⟨by decide!, by decide!, by decide!, by decide!, by decide!⟩


theorem preprocess_level_frame (env : Env Ext) (b : board) (s : State Ext) :
    (preprocess_level env b s).2.2.trace = s.trace
    ∧ (preprocess_level env b s).2.2.helpers = s.helpers
    ∧ (preprocess_level env b s).2.2.start_time = s.start_time
    ∧ (preprocess_level env b s).2.2.cores_num = s.cores_num := by
  unfold preprocess_level
  simp only
  split_ifs <;> exact ⟨rfl, rfl, rfl, rfl⟩

theorem preprocess_level_fails (env : Env Ext) (b : board) (s : State Ext)
    (hfail : s.height = 0 ∨ s.width = 0
      ∨ (sanity_checks_result env b s).1 = 0 ∨ (analyse_rooms_result env b s).1 = 0) :
    (preprocess_level env b s).1 = 0 := by
  unfold preprocess_level
  simp only
  split_ifs with h1 h2 h3
  · rfl
  · rfl
  · rfl
  · exfalso
    rcases hfail with h | h | h | h
    · exact h1 (Or.inl h)
    · exact h1 (Or.inr h)
    · exact h2 h
    · exact h3 h

theorem reset_helpers_trace (env : Env Ext) (n : Nat) (s : State Ext) :
    (∃ l, (reset_helpers env n s).trace = s.trace ++ l ∧ ∀ e ∈ l, e.isReset = true)
    ∧ (reset_helpers env n s).start_time = s.start_time
    ∧ (reset_helpers env n s).cores_num = s.cores_num
    ∧ (reset_helpers env n s).height = s.height
    ∧ (reset_helpers env n s).width = s.width := by
  induction n with
  | zero => exact ⟨⟨[], by simp [reset_helpers], by simp⟩, rfl, rfl, rfl, rfl⟩
  | succ n ih =>
    obtain ⟨⟨l, hl, hp⟩, h1, h2, h3, h4⟩ := ih
    refine ⟨⟨l ++ [Event.reset_helper n], ?_, ?_⟩, h1, h2, h3, h4⟩
    · simp only [reset_helpers, call_reset_helper_trace, hl, List.append_assoc]
    · intro e he
      rcases List.mem_append.1 he with h | h
      · exact hp e h
      · simp only [List.mem_singleton] at h
        subst h; rfl

theorem reset_helpers_clears (env : Env Ext)
    (hreset : ∀ (h : helper) (e : Ext), (env.reset_helper h e).1.level_solved = 0)
    (n : Nat) (s : State Ext) :
    ((reset_helpers env (n + 1) s).helpers 0).level_solved = 0 := by
  induction n with
  | zero =>
    simp only [reset_helpers, call_reset_helper, callH, Function.update_same]
    exact hreset _ _
  | succ n ih =>
    have hne : (0 : Nat) ≠ n + 1 := by omega
    rw [reset_helpers]
    simp only [call_reset_helper, callH, Function.update_noteq hne, log_helpers]
    exact ih

/-- C4. Let the solve run with at least one core and a `reset_helper` that clears the solved
flag. If the board has height or width zero, or `sanity_checks` returns 0, or `analyse_rooms`
returns 0, then `preprocess_level` returns 0 and `solve_with_time_control` logs no start of an
attempt, no call of the forward controller and no engine call, and returns with the solved flag
of `helpers[0]` clear. -/
theorem preprocess_failure_no_search (env : Env Ext) (b : board) (s : State Ext)
    (hcores : 1 ≤ s.cores_num)
    (hreset : ∀ (h : helper) (e : Ext), (env.reset_helper h e).1.level_solved = 0)
    (hfail : s.height = 0 ∨ s.width = 0
      ∨ (sanity_checks_result env b (solve_prologue env s)).1 = 0
      ∨ (analyse_rooms_result env b (solve_prologue env s)).1 = 0) :
    (preprocess_level env b (solve_prologue env s)).1 = 0
    ∧ (∃ l, (solve_with_time_control env b s).trace = s.trace ++ l
        ∧ ∀ e ∈ l, e.isAttempt = false ∧ e.isEngine = false ∧ e.isForward = false)
    ∧ ((solve_with_time_control env b s).helpers 0).level_solved = 0 := by
  obtain ⟨⟨l, hl, hp⟩, _, _, hh, hw⟩ :=
    reset_helpers_trace env s.cores_num.toNat
      { (time0 env s).2 with start_time := (time0 env s).1, any_core_solved := 0 }
  have hpro : solve_prologue env s = reset_helpers env s.cores_num.toNat
      { (time0 env s).2 with start_time := (time0 env s).1, any_core_solved := 0 } := rfl
  have hfail2 : (preprocess_level env b (solve_prologue env s)).1 = 0 := by
    apply preprocess_level_fails
    rcases hfail with h | h | h | h
    · left; rw [hpro, hh]; exact h
    · right; left; rw [hpro, hw]; exact h
    · right; right; left; exact h
    · right; right; right; exact h
  obtain ⟨ft, fh, _, _⟩ := preprocess_level_frame env b (solve_prologue env s)
  have hne : ¬ ((preprocess_level env b (solve_prologue env s)).1 = 1) := by
    rw [hfail2]; decide
  obtain ⟨n, hn⟩ : ∃ n : Nat, s.cores_num.toNat = n + 1 :=
    ⟨s.cores_num.toNat - 1, by omega⟩
  have hflag : ((solve_prologue env s).helpers 0).level_solved = 0 := by
    rw [hpro, hn]
    exact reset_helpers_clears env hreset n _
  refine ⟨hfail2, ⟨Event.time (env.time s.ext) :: l ++
      [Event.time (env.time (preprocess_level env b (solve_prologue env s)).2.2.ext)], ?_, ?_⟩, ?_⟩
  · simp only [solve_with_time_control, hne, if_false]
    split_ifs
    · show (preprocess_level env b (solve_prologue env s)).2.2.trace ++ _ = _
      rw [ft, hpro, hl]
      simp
    · show (preprocess_level env b (solve_prologue env s)).2.2.trace ++ _ = _
      rw [ft, hpro, hl]
      simp
  · intro e he
    simp only [List.cons_append, List.mem_cons, List.mem_append, List.not_mem_nil,
      or_false] at he
    rcases he with h | h | h
    · subst h; exact ⟨rfl, rfl, rfl⟩
    · have := hp e h
      cases e <;> simp_all [Event.isReset, Event.isAttempt, Event.isEngine, Event.isForward]
    · subst h; exact ⟨rfl, rfl, rfl⟩
  · simp only [solve_with_time_control, hne, if_false]
    split_ifs
    · show ((preprocess_level env b (solve_prologue env s)).2.2.helpers 0).level_solved = 0
      rw [fh]; exact hflag
    · show ((preprocess_level env b (solve_prologue env s)).2.2.helpers 0).level_solved = 0
      rw [fh]; exact hflag

/-- Witness for C4: a board that the sanity checks reject. -/
theorem preprocess_failure_no_search_witness :
    ((1 : Int) ≤ (state0 0 60).cores_num
      ∧ (∀ (h : helper) (e : Int), (rejectEnv.reset_helper h e).1.level_solved = 0)
      ∧ (sanity_checks_result rejectEnv board0 (solve_prologue rejectEnv (state0 0 60))).1 = 0)
    ∧ ((solve_with_time_control rejectEnv board0 (state0 0 60)).helpers 0).level_solved = 0 :=
  ⟨⟨by decide, fun _ _ => rfl, rfl⟩,
   (preprocess_failure_no_search rejectEnv board0 (state0 0 60) (by decide) (fun _ _ => rfl)
      (Or.inr (Or.inr (Or.inl rfl)))).2.2⟩


theorem read_lines_succ (MAX_SIZE : Nat) (rm : List Char → List Char) (k : Nat)
    (cs : List Char) (lines : List (List Char)) (h w : Nat) :
    read_lines MAX_SIZE rm (k + 1) cs (lines, h, w)
      = match fgets MAX_SIZE cs with
        | none => (lines, h, w)
        | some (line, rest) =>
          if h < MAX_SIZE then
            read_lines MAX_SIZE rm k rest
              (lines ++ [rm line], h + 1,
               if (rm line).length > w then (rm line).length else w)
          else (lines, h, w) := rfl

theorem read_lines_enough (MAX_SIZE : Nat) (rm : List Char → List Char) :
    ∀ (k1 k2 : Nat) (cs : List Char) (lines : List (List Char)) (h w : Nat),
      MAX_SIZE < h + k1 → MAX_SIZE < h + k2 →
      read_lines MAX_SIZE rm k1 cs (lines, h, w) = read_lines MAX_SIZE rm k2 cs (lines, h, w) := by
  intro k1
  induction k1 with
  | zero =>
    intro k2 cs lines h w h1 _
    have hge : ¬ h < MAX_SIZE := by omega
    cases k2 with
    | zero => rfl
    | succ k2 =>
      rw [read_lines_succ]
      cases hf : fgets MAX_SIZE cs with
      | none => rfl
      | some p => simp only [if_neg hge]; rfl
  | succ k1 ih =>
    intro k2 cs lines h w h1 h2
    cases k2 with
    | zero =>
      have hge : ¬ h < MAX_SIZE := by omega
      rw [read_lines_succ]
      cases hf : fgets MAX_SIZE cs with
      | none => rfl
      | some p => simp only [if_neg hge]; rfl
    | succ k2 =>
      rw [read_lines_succ, read_lines_succ]
      cases hf : fgets MAX_SIZE cs with
      | none => rfl
      | some p =>
        by_cases hlt : h < MAX_SIZE
        · simp only [if_pos hlt]
          exact ih k2 _ _ _ _ (by omega) (by omega)
        · simp only [if_neg hlt]

theorem append_steps_fits (buffer : List Char) :
    ∀ full_lurd : List Char, full_lurd.length + buffer.length ≤ 1024 * 1024 - 1 →
      append_steps full_lurd buffer = full_lurd ++ buffer := by
  induction buffer with
  | nil => intro full_lurd _; simp [append_steps]
  | cons c cs ih =>
    intro full_lurd h
    simp only [List.length_cons] at h
    have hlt : full_lurd.length < 1024 * 1024 - 1 := by omega
    have := ih (full_lurd ++ [c]) (by simp only [List.length_append, List.length_singleton]; omega)
    simp only [append_steps, List.foldl_cons, if_pos hlt] at this ⊢
    rw [this]
    simp

theorem expected_call_from_zero (env : ReplayEnv) (b : board) (sok : Int) (m : move)
    (ms : List move) :
    expected_call_from env b sok (m :: ms) 0
      = { b := b, start_sok_index := sok, start_box_index := m.from_,
          end_sok_index := offset_index env m, end_box_index := m.to_ } := by
  simp [expected_call_from]

theorem expected_call_from_succ (env : ReplayEnv) (b : board) (sok : Int) (m : move)
    (ms : List move) (i : Nat) :
    expected_call_from env b sok (m :: ms) (i + 1)
      = expected_call_from env (env.apply_move b m env.NORMAL) (offset_index env m) ms i := by
  cases i with
  | zero => simp [expected_call_from]
  | succ k => simp [expected_call_from]

theorem expected_batches_cons (env : ReplayEnv) (b : board) (sok : Int) (m : move)
    (ms : List move) :
    expected_batches env b sok (m :: ms)
      = answer env (expected_call_from env b sok (m :: ms) 0)
        :: expected_batches env (env.apply_move b m env.NORMAL) (offset_index env m) ms := by
  simp only [expected_batches, List.length_cons, List.range_succ_eq_map, List.map_cons,
    List.map_map]
  congr 1
  apply List.map_congr_left
  intro i _
  simp only [Function.comp, expected_call_from_succ]

theorem replay_from (env : ReplayEnv) (moves : List move) :
    ∀ st : ReplayState,
      st.full_lurd.length
          + ((expected_batches env st.sim_b (env.y_x_to_index st.sok_y st.sok_x) moves).map
              List.length).sum ≤ 1024 * 1024 - 1 →
      (moves.foldl (replay_step env) st).calls
          = st.calls ++ (List.range moves.length).map
              (expected_call_from env st.sim_b (env.y_x_to_index st.sok_y st.sok_x) moves)
      ∧ (moves.foldl (replay_step env) st).full_lurd
          = st.full_lurd
            ++ (expected_batches env st.sim_b (env.y_x_to_index st.sok_y st.sok_x) moves).flatten
      ∧ (moves.foldl (replay_step env) st).total_steps
          = st.total_steps
            + (((expected_batches env st.sim_b (env.y_x_to_index st.sok_y st.sok_x) moves).map
                List.length).sum : Nat)
      ∧ (moves.foldl (replay_step env) st).total_pushes
          = st.total_pushes
            + ((expected_batches env st.sim_b (env.y_x_to_index st.sok_y st.sok_x) moves).map
                (fun batch => env.count_pushes batch batch.length)).sum := by
  induction moves with
  | nil => intro st _; simp [expected_batches]
  | cons m ms ih =>
    intro st hfit
    rw [expected_batches_cons] at hfit ⊢
    simp only [List.map_cons, List.sum_cons] at hfit
    have hans : answer env (expected_call_from env st.sim_b
          (env.y_x_to_index st.sok_y st.sok_x) (m :: ms) 0)
        = env.find_sol_move st.sim_b (env.y_x_to_index st.sok_y st.sok_x) m.from_
            (offset_index env m) m.to_ := by
      rw [expected_call_from_zero]; rfl
    rw [hans] at hfit ⊢
    have hstep : (replay_step env st m).full_lurd
        = st.full_lurd ++ env.find_sol_move st.sim_b (env.y_x_to_index st.sok_y st.sok_x)
            m.from_ (offset_index env m) m.to_ :=
      append_steps_fits (env.find_sol_move st.sim_b (env.y_x_to_index st.sok_y st.sok_x)
        m.from_ (offset_index env m) m.to_) st.full_lurd (by omega)
    have hsim : (replay_step env st m).sim_b = env.apply_move st.sim_b m env.NORMAL := rfl
    have hsok : env.y_x_to_index (replay_step env st m).sok_y (replay_step env st m).sok_x
        = offset_index env m := rfl
    obtain ⟨h1, h2, h3, h4⟩ := ih (replay_step env st m) (by
      rw [hsim, hsok, hstep]
      simp only [List.length_append]
      omega)
    rw [hsim, hsok] at h1 h2 h3 h4
    rw [List.foldl_cons]
    refine ⟨?_, ?_, ?_, ?_⟩
    · rw [h1]
      have hc : (replay_step env st m).calls
          = st.calls ++ [expected_call_from env st.sim_b
              (env.y_x_to_index st.sok_y st.sok_x) (m :: ms) 0] := by
        rw [expected_call_from_zero]; rfl
      rw [hc, List.append_assoc]
      simp only [List.length_cons, List.range_succ_eq_map, List.map_cons, List.map_map,
        List.singleton_append]
      congr 2
      apply List.map_congr_left
      intro i _
      simp only [Function.comp, expected_call_from_succ]
    · rw [h2, hstep]
      simp only [List.flatten_cons, List.append_assoc]
    · rw [h3]
      have hs : (replay_step env st m).total_steps
          = st.total_steps + ((env.find_sol_move st.sim_b (env.y_x_to_index st.sok_y st.sok_x)
              m.from_ (offset_index env m) m.to_).length : Int) := rfl
      rw [hs]
      simp only [List.map_cons, List.sum_cons]
      push_cast
      ring
    · rw [h4]
      have hp : (replay_step env st m).total_pushes
          = st.total_pushes + env.count_pushes
              (env.find_sol_move st.sim_b (env.y_x_to_index st.sok_y st.sok_x)
                m.from_ (offset_index env m) m.to_)
              ((env.find_sol_move st.sim_b (env.y_x_to_index st.sok_y st.sok_x)
                m.from_ (offset_index env m) m.to_).length : Int) := rfl
      rw [hp]
      simp only [List.map_cons, List.sum_cons]
      ring


/-- C6. If the step batches of a solution fit the output buffer of 1,048,575 characters, the
replay calls the pathfinder once per move, in order, call `i` with the initial board after moves
`0 .. i-1`, the player at its initial position for `i = 0` and otherwise at the cell `to` of
move `i-1` offset by the delta of its `sokoban_position`, the box at `from` of move `i`, the
player end at `to` of move `i` offset by the delta of its `sokoban_position`, and the box end
at `to` of move `i`. The move string is the concatenation of the batches returned, in order,
`total_steps` the sum of their lengths and `total_pushes` the sum of `count_pushes` over
them. -/
theorem replay_reference (env : ReplayEnv) (initial_board : board) (sol_move : List move)
    (hfit : ((replay_batches env initial_board sol_move).map List.length).sum ≤ 1048575) :
    (replay env initial_board sol_move).calls
        = (List.range sol_move.length).map (expected_call env initial_board sol_move)
    ∧ replay_batches env initial_board sol_move
        = (List.range sol_move.length).map
            (fun i => answer env (expected_call env initial_board sol_move i))
    ∧ (replay env initial_board sol_move).full_lurd
        = (replay_batches env initial_board sol_move).flatten
    ∧ (replay env initial_board sol_move).total_steps
        = (((replay_batches env initial_board sol_move).map List.length).sum : Nat)
    ∧ (replay env initial_board sol_move).total_pushes
        = ((replay_batches env initial_board sol_move).map
            (fun batch => env.count_pushes batch batch.length)).sum := by
  obtain ⟨h1, h2, h3, h4⟩ := replay_from env sol_move (replay_init env initial_board) (by
    have : (replay_init env initial_board).full_lurd.length = 0 := rfl
    rw [this]
    have h := hfit
    unfold replay_batches at h
    have hc : (1024 * 1024 - 1 : Nat) = 1048575 := by norm_num
    rw [hc]
    simpa using h)
  refine ⟨?_, rfl, ?_, ?_, ?_⟩
  · have := h1
    simpa [replay, replay_init, expected_call] using this
  · have := h2
    simpa [replay, replay_init, replay_batches] using this
  · have := h3
    simpa [replay, replay_init, replay_batches] using this
  · have := h4
    simpa [replay, replay_init, replay_batches] using this

/-- Witness for C6: two pushes along a row. -/
theorem replay_reference_witness :
    ((replay_batches demoReplayEnv board0
        [{ from_ := 3, to_ := 4, sokoban_position := 0, pull := 0 },
         { from_ := 4, to_ := 5, sokoban_position := 0, pull := 0 }]).map List.length).sum
      ≤ 1048575
    ∧ (replay demoReplayEnv board0
        [{ from_ := 3, to_ := 4, sokoban_position := 0, pull := 0 },
         { from_ := 4, to_ := 5, sokoban_position := 0, pull := 0 }]).total_steps
      = (((replay_batches demoReplayEnv board0
        [{ from_ := 3, to_ := 4, sokoban_position := 0, pull := 0 },
         { from_ := 4, to_ := 5, sokoban_position := 0, pull := 0 }]).map List.length).sum : Nat) :=
  ⟨by decide,
   (replay_reference demoReplayEnv board0
      [{ from_ := 3, to_ := 4, sokoban_position := 0, pull := 0 },
       { from_ := 4, to_ := 5, sokoban_position := 0, pull := 0 }] (by decide)).2.2.2.1⟩


/-- C8. A budget of zero or less is a no-op for the strategy controller and for both phase
controllers: each returns the board as it was and the state as it was except for the ghost log,
which gains only the call itself (and, for the phase controllers, the clock read that precedes
the test); no engine call and no reset are logged and no helper field is written. -/
theorem nonpositive_budget_noop (env : Env Ext) (b : board) (time_allocation : Int)
    (strategy_index : Fin 8) (search_type : SearchType) (t hi : Nat) (s : State Ext)
    (hle : time_allocation ≤ 0) :
    solve_with_alg env b time_allocation strategy_index hi s
        = { s with trace := s.trace ++ [Event.solve_with_alg time_allocation strategy_index.val] }
    ∧ packing_search_control env b time_allocation search_type t hi s
        = (b, { s with trace := s.trace ++
            [Event.packing_search_control time_allocation search_type (s.helpers hi),
             Event.time (env.time s.ext)] })
    ∧ forward_search_control env b time_allocation search_type t hi s
        = (b, { s with trace := s.trace ++
            [Event.forward_search_control time_allocation search_type (s.helpers hi),
             Event.time (env.time s.ext)] }) := by
  refine ⟨?_, ?_, ?_⟩
  · rw [solve_with_alg_nonpositive env b _ _ _ _ hle]; rfl
  · simp [packing_search_control, hle, State.log, time0]
  · simp [forward_search_control, hle, State.log, time0]

/-- Witness for C8: the three controllers at budget 0 on the idle collaborators. -/
theorem nonpositive_budget_noop_witness :
    (0 : Int) ≤ 0 ∧
    solve_with_alg idleEnv board0 0 3 0 (state0 0 60)
      = { state0 0 60 with trace := (state0 0 60).trace ++ [Event.solve_with_alg 0 3] } :=
  ⟨le_refl 0,
   (nonpositive_budget_noop idleEnv board0 0 3 SearchType.HF_SEARCH 0 0 (state0 0 60)
      (le_refl 0)).1⟩

theorem first_budgets_remaining (T : Int) :
    ∀ (k i : Nat), i + k = 8 →
      first_budgets T i ++ remaining_budgets k (T - (first_budgets T i).sum)
        = schedule_budgets T := by
  intro k
  induction k with
  | zero =>
    intro i hi
    have h8 : i = 8 := by omega
    subst h8
    simp [remaining_budgets, schedule_budgets]
  | succ k ih =>
    intro i hi
    have hd : (8 : Int) - (i : Int) = (k : Int) + 1 := by omega
    have := ih (i + 1) (by omega)
    rw [← this]
    simp only [first_budgets, remaining_budgets, List.sum_append, List.sum_singleton,
      List.append_assoc, List.singleton_append, hd]
    congr 3
    ring

theorem schedule_budgets_eq_remaining (T : Int) :
    schedule_budgets T = remaining_budgets 8 T := by
  have := first_budgets_remaining T 8 0 (by omega)
  simpa [first_budgets] using this.symm

theorem remaining_budgets_replicate :
    ∀ (n r : Nat) (q : Int), r ≤ n →
      remaining_budgets (n + 1) (((n : Int) + 1) * q + (r : Int))
        = List.replicate (n + 1 - r) q ++ List.replicate r (q + 1) := by
  intro n
  induction n with
  | zero =>
    intro r q hr
    have : r = 0 := by omega
    subst this
    simp [remaining_budgets]
  | succ n ih =>
    intro r q hr
    have hdiv : ((((n + 1 : Nat) : Int) + 1) * q + (r : Int)) / (((n + 1 : Nat) : Int) + 1) = q := by
      have hpos : (0 : Int) < ((n + 1 : Nat) : Int) + 1 := by omega
      rw [Int.add_comm, Int.add_mul_ediv_left _ _ (ne_of_gt hpos)]
      have : ((r : Int)) / (((n + 1 : Nat) : Int) + 1) = 0 :=
        Int.ediv_eq_zero_of_lt (by omega) (by omega)
      omega
    rw [remaining_budgets, hdiv]
    rcases Nat.lt_or_ge r (n + 1) with hlt | hge
    · have hrem : (((n + 1 : Nat) : Int) + 1) * q + (r : Int) - q
          = ((n : Int) + 1) * q + (r : Int) := by push_cast; ring
      rw [hrem, ih r q (by omega)]
      have hc : n + 1 + 1 - r = (n + 1 - r) + 1 := by omega
      rw [hc, List.replicate_succ, List.cons_append]
    · have hr2 : r = n + 1 := by omega
      subst hr2
      have hrem : (((n + 1 : Nat) : Int) + 1) * q + ((n + 1 : Nat) : Int) - q
          = ((n : Int) + 1) * (q + 1) + ((0 : Nat) : Int) := by push_cast; ring
      rw [hrem, ih 0 (q + 1) (by omega)]
      simp

theorem schedule_budgets_replicate (T : Int) :
    schedule_budgets T
      = List.replicate (8 - (T % 8).toNat) (T / 8) ++ List.replicate (T % 8).toNat (T / 8 + 1) := by
  have h1 : 0 ≤ T % 8 := Int.emod_nonneg T (by decide)
  have h2 : T % 8 < 8 := Int.emod_lt_of_pos T (by decide)
  have h3 := Int.emod_add_ediv T 8
  have hr : ((T % 8).toNat : Int) = T % 8 := Int.toNat_of_nonneg h1
  have key := remaining_budgets_replicate 7 (T % 8).toNat (T / 8) (by omega)
  have harg : (((7 : Nat) : Int) + 1) * (T / 8) + ((T % 8).toNat : Int) = T := by
    rw [hr]; push_cast; omega
  rw [harg] at key
  rw [schedule_budgets_eq_remaining, key]


theorem floor_div_eight (T : Int) : ⌊(T : ℚ) / 8⌋ = T / 8 := by
  have := Rat.floor_intCast_div_natCast T 8
  simpa using this

theorem ceil_div_eight (T : Int) (h : T % 8 ≠ 0) : ⌈(T : ℚ) / 8⌉ = T / 8 + 1 := by
  have h1 : 0 ≤ T % 8 := Int.emod_nonneg T (by decide)
  have h2 : T % 8 < 8 := Int.emod_lt_of_pos T (by decide)
  have h3 := Int.emod_add_ediv T 8
  rw [Int.ceil_eq_iff]
  have hT : (T : ℚ) = 8 * ((T / 8 : Int) : ℚ) + ((T % 8 : Int) : ℚ) := by
    have : T = 8 * (T / 8) + T % 8 := by omega
    exact_mod_cast this
  have hr1 : (0 : ℚ) < ((T % 8 : Int) : ℚ) := by
    have : 0 < T % 8 := by omega
    exact_mod_cast this
  have hr2 : ((T % 8 : Int) : ℚ) < 8 := by exact_mod_cast h2
  constructor
  · rw [lt_div_iff₀ (by norm_num : (0 : ℚ) < 8)]
    push_cast
    linarith
  · rw [div_le_iff₀ (by norm_num : (0 : ℚ) < 8)]
    push_cast
    linarith

theorem schedule_budgets_facts (T : Int) :
    (schedule_budgets T).length = 8
    ∧ (schedule_budgets T).sum = T
    ∧ List.Pairwise (fun x y => x ≤ y) (schedule_budgets T)
    ∧ (∀ t ∈ schedule_budgets T, t = ⌊(T : ℚ) / 8⌋ ∨ t = ⌈(T : ℚ) / 8⌉)
    ∧ (8 ∣ T → ∀ t ∈ schedule_budgets T, (t : ℚ) = (T : ℚ) / 8) := by
  have h1 : 0 ≤ T % 8 := Int.emod_nonneg T (by decide)
  have h2 : T % 8 < 8 := Int.emod_lt_of_pos T (by decide)
  have h3 := Int.emod_add_ediv T 8
  have hr : ((T % 8).toNat : Int) = T % 8 := Int.toNat_of_nonneg h1
  have hle : (T % 8).toNat ≤ 8 := by omega
  rw [schedule_budgets_replicate]
  refine ⟨?_, ?_, ?_, ?_, ?_⟩
  · simp only [List.length_append, List.length_replicate]; omega
  · simp only [List.sum_append, List.sum_replicate, nsmul_eq_mul]
    have hc : ((8 - (T % 8).toNat : Nat) : Int) = 8 - T % 8 := by omega
    rw [hc, hr]
    have : (8 - T % 8) * (T / 8) + T % 8 * (T / 8 + 1) = 8 * (T / 8) + T % 8 := by ring
    omega
  · rw [List.pairwise_append]
    refine ⟨?_, ?_, ?_⟩
    · rw [List.pairwise_replicate]; right; exact le_refl _
    · rw [List.pairwise_replicate]; right; exact le_refl _
    · intro a ha c hc
      rw [List.eq_of_mem_replicate ha, List.eq_of_mem_replicate hc]
      omega
  · intro t ht
    rcases List.mem_append.1 ht with h | h
    · left
      rw [List.eq_of_mem_replicate h, floor_div_eight]
    · right
      have hne : (T % 8).toNat ≠ 0 := by
        intro h0
        rw [h0] at h
        simp at h
      rw [List.eq_of_mem_replicate h, ceil_div_eight T (by omega)]
  · intro hdiv t ht
    have h0 : T % 8 = 0 := Int.emod_eq_zero_of_dvd hdiv
    have ht2 : t = T / 8 := by
      rw [h0] at ht
      simpa using ht
    rw [ht2]
    have : T = 8 * (T / 8) := by omega
    have hq : (T : ℚ) = 8 * ((T / 8 : Int) : ℚ) := by exact_mod_cast this
    rw [eq_div_iff (by norm_num : (8 : ℚ) ≠ 0)]
    linarith


theorem consumes_budgets_succ (env : Env Ext) (b : board) (n : Nat) (s : State Ext) :
    consumes_budgets env b (n + 1) s
      = (decide (env.time (single_core_iteration env b ⟨7 - n, by omega⟩ s).ext
          = env.time s.ext
            + Int.tdiv (s.start_time + s.time_limit - env.time s.ext)
                (8 - ((7 - n : Nat) : Int)))
        && decide (((single_core_iteration env b ⟨7 - n, by omega⟩ s).helpers 0).level_solved
            = 0)
        && consumes_budgets env b n (single_core_iteration env b ⟨7 - n, by omega⟩ s)) := rfl

theorem remaining_budgets_succ (n : Nat) (R : Int) :
    remaining_budgets (n + 1) R
      = R / ((n : Int) + 1) :: remaining_budgets n (R - R / ((n : Int) + 1)) := rfl

theorem budget_events_cons (i : Nat) (t : Int) (ts : List Int) :
    budget_events i (t :: ts) = Event.solve_with_alg t i :: budget_events (i + 1) ts := rfl

theorem filter_attempt_block (S T : Int) (i : Nat) (r : AttemptRecord)
    (h : ∀ e ∈ r.inner, e.isAttempt = false) :
    (attempt_block S T i r).filter Event.isAttempt
      = [Event.solve_with_alg (Int.tdiv (S + T - r.now) (8 - (i : Int))) i] := by
  have hin : r.inner.filter Event.isAttempt = [] := by
    rw [List.filter_eq_nil_iff]
    intro e he
    simp [h e he]
  simp [attempt_block, List.filter_append, List.filter_cons, Event.isAttempt, hin]

theorem single_core_loop_budgets (env : Env Ext) (b : board) :
    ∀ (n : Nat) (_ : n < 8) (s : State Ext),
      0 ≤ s.start_time + s.time_limit - env.time s.ext →
      consumes_budgets env b (n + 1) s = true →
      (single_core_loop env b (n + 1) s).trace.filter Event.isAttempt
        = s.trace.filter Event.isAttempt
          ++ budget_events (7 - n)
              (remaining_budgets (n + 1) (s.start_time + s.time_limit - env.time s.ext))
      ∧ ((single_core_loop env b (n + 1) s).helpers 0).level_solved = 0
      ∧ env.time (single_core_loop env b (n + 1) s).ext = s.start_time + s.time_limit := by
  intro n
  induction n with
  | zero =>
    intro hn s hR hrun
    obtain ⟨s2, inner, hdef, ht, hp, _, _, _, hneg⟩ := single_core_loop_step env b 0 hn s
    rw [consumes_budgets_succ, Bool.and_eq_true, Bool.and_eq_true] at hrun
    obtain ⟨⟨h1, h2⟩, _⟩ := hrun
    have h1 := of_decide_eq_true h1
    have h2 := of_decide_eq_true h2
    rw [← hdef] at h1 h2
    have h0 : single_core_loop env b (0 + 1) s = s2 := hneg h2
    have hd : ((8 : Int) - ((7 - 0 : Nat) : Int)) = 1 := by norm_num
    rw [hd, Int.tdiv_one] at h1
    rw [h0, ht, List.filter_append, filter_attempt_block _ _ _ _ hp]
    refine ⟨?_, h2, by omega⟩
    simp only [remaining_budgets, budget_events]
    norm_num
  | succ n ih =>
    intro hn s hR hrun
    obtain ⟨s2, inner, hdef, ht, hp, hS, hT, _, hneg⟩ :=
      single_core_loop_step env b (n + 1) hn s
    rw [consumes_budgets_succ, Bool.and_eq_true, Bool.and_eq_true] at hrun
    obtain ⟨⟨h1, h2⟩, h3⟩ := hrun
    have h1 := of_decide_eq_true h1
    have h2 := of_decide_eq_true h2
    rw [← hdef] at h1 h2 h3
    have hd : ((8 : Int) - ((7 - (n + 1) : Nat) : Int)) = ((n + 1 : Nat) : Int) + 1 := by
      push_cast; omega
    have hpos : (0 : Int) ≤ ((n + 1 : Nat) : Int) + 1 := by omega
    rw [hd, Int.tdiv_eq_ediv hR hpos] at h1
    have hle : (s.start_time + s.time_limit - env.time s.ext) / (((n + 1 : Nat) : Int) + 1)
        ≤ s.start_time + s.time_limit - env.time s.ext :=
      Int.ediv_le_self _ hR
    have hR2 : s2.start_time + s2.time_limit - env.time s2.ext
        = (s.start_time + s.time_limit - env.time s.ext)
          - (s.start_time + s.time_limit - env.time s.ext) / (((n + 1 : Nat) : Int) + 1) := by
      rw [hS, hT, h1]; ring
    obtain ⟨e1, e2, e3⟩ := ih (by omega) s2 (by rw [hR2]; omega) h3
    rw [hneg h2]
    refine ⟨?_, e2, by rw [e3, hS, hT]⟩
    have hidx : 7 - (n + 1) + 1 = 7 - n := by omega
    have key : budget_events (7 - (n + 1))
          (remaining_budgets (n + 1 + 1) (s.start_time + s.time_limit - env.time s.ext))
        = Event.solve_with_alg
            ((s.start_time + s.time_limit - env.time s.ext) / (((n + 1 : Nat) : Int) + 1))
            (7 - (n + 1))
          :: budget_events (7 - n)
              (remaining_budgets (n + 1)
                ((s.start_time + s.time_limit - env.time s.ext)
                  - (s.start_time + s.time_limit - env.time s.ext)
                    / (((n + 1 : Nat) : Int) + 1))) := by
      rw [remaining_budgets_succ (n + 1), budget_events_cons, hidx]
    rw [e1, ht, List.filter_append, filter_attempt_block _ _ _ _ hp, hR2, List.append_assoc,
      key, hd, Int.tdiv_eq_ediv hR hpos]
    rfl


theorem first_budgets_length (T : Int) : ∀ i, (first_budgets T i).length = i := by
  intro i
  induction i with
  | zero => rfl
  | succ i ih => simp [first_budgets, ih]

theorem first_budgets_getElem (T : Int) :
    ∀ j i, i < j →
      (first_budgets T j)[i]? = some ((T - (first_budgets T i).sum) / (8 - (i : Int))) := by
  intro j
  induction j with
  | zero => intro i hi; omega
  | succ j ih =>
    intro i hi
    rw [first_budgets]
    by_cases h : i < j
    · rw [List.getElem?_append_left (by rw [first_budgets_length]; exact h)]
      exact ih i h
    · have hij : i = j := by omega
      subst hij
      rw [List.getElem?_append_right (by rw [first_budgets_length]), first_budgets_length]
      simp

theorem first_budgets_take (T : Int) :
    ∀ j i, i ≤ j → (first_budgets T j).take i = first_budgets T i := by
  intro j
  induction j with
  | zero =>
    intro i hi
    have : i = 0 := by omega
    subst this
    rfl
  | succ j ih =>
    intro i hi
    by_cases h : i ≤ j
    · rw [first_budgets, List.take_append_of_le_length (by rw [first_budgets_length]; exact h)]
      exact ih i h
    · have hij : i = j + 1 := by omega
      subst hij
      exact List.take_of_length_le (by rw [first_budgets_length])

theorem schedule_budgets_recurrence (T : Int) (i : Fin 8) :
    (schedule_budgets T)[i.val]?
      = some ⌊((T - ((schedule_budgets T).take i.val).sum : Int) : ℚ)
          / ((8 : ℚ) - (i.val : ℚ))⌋ := by
  have hi := i.isLt
  rw [schedule_budgets, first_budgets_take T 8 i.val (by omega),
    first_budgets_getElem T 8 i.val hi]
  have hc : ((8 : ℚ) - (i.val : ℚ)) = (((8 - i.val : Nat) : Nat) : ℚ) := by
    rw [Nat.cast_sub (by omega)]; norm_num
  have hz : ((8 : Int) - (i.val : Int)) = (((8 - i.val : Nat) : Nat) : Int) := by omega
  rw [hc, Rat.floor_intCast_div_natCast, hz]

/-- C11. Let the sequential schedule be entered with no forced strategy and `T >= 0` seconds
left until `start_time + time_limit` (`T` is the time limit when it is entered at the start
time). If every attempt consumes exactly its budget and leaves the puzzle unsolved, then the
schedule starts the eight strategies `0 .. 7` in order with the budgets
`budget_i = floor((T - (budget_0 + ... + budget_{i-1})) / (8 - i))`; these eight budgets sum to
exactly `T`, are non-decreasing in `i`, each equals `floor(T / 8)` or `ceil(T / 8)`, and all
equal `T / 8` when 8 divides `T`; the clock on return has advanced by exactly `T`. -/
theorem schedule_budgets_even_split (env : Env Ext) (b : board) (s : State Ext) (T : Int)
    (hforced : s.forced_alg = none)
    (hleft : s.start_time + s.time_limit - env.time s.ext = T)
    (hT : 0 ≤ T)
    (hrun : consumes_budgets env b 8 s = true) :
    (solve_with_time_control_single_core env b s).trace.filter Event.isAttempt
        = s.trace.filter Event.isAttempt ++ budget_events 0 (schedule_budgets T)
    ∧ (∀ i : Fin 8, (schedule_budgets T)[i.val]?
        = some ⌊((T - ((schedule_budgets T).take i.val).sum : Int) : ℚ)
            / ((8 : ℚ) - (i.val : ℚ))⌋)
    ∧ (schedule_budgets T).length = 8
    ∧ (schedule_budgets T).sum = T
    ∧ List.Pairwise (fun x y => x ≤ y) (schedule_budgets T)
    ∧ (∀ t ∈ schedule_budgets T, t = ⌊(T : ℚ) / 8⌋ ∨ t = ⌈(T : ℚ) / 8⌉)
    ∧ (8 ∣ T → ∀ t ∈ schedule_budgets T, (t : ℚ) = (T : ℚ) / 8)
    ∧ env.time (solve_with_time_control_single_core env b s).ext = env.time s.ext + T := by
  have hrun2 : solve_with_time_control_single_core env b s = single_core_loop env b (7 + 1) s := by
    simp only [solve_with_time_control_single_core, hforced]
  obtain ⟨e1, _, e3⟩ := single_core_loop_budgets env b 7 (by omega) s (by rw [hleft]; exact hT) hrun
  rw [← hrun2, hleft, ← schedule_budgets_eq_remaining] at e1
  rw [← hrun2] at e3
  obtain ⟨f1, f2, f3, f4, f5⟩ := schedule_budgets_facts T
  exact ⟨e1, schedule_budgets_recurrence T, f1, f2, f3, f4, f5, by rw [e3]; omega⟩

/-- Witness for C11: 83 seconds from clock 0 with engines that use up the time they are handed
and a packing engine that finds a packing order; the budgets are 10 five times, then 11 three
times. -/
theorem schedule_budgets_even_split_witness :
    ((state0 0 83).forced_alg = none
      ∧ (state0 0 83).start_time + (state0 0 83).time_limit - exactEnv.time (state0 0 83).ext = 83
      ∧ (0 : Int) ≤ 83
      ∧ consumes_budgets exactEnv board0 8 (state0 0 83) = true)
    ∧ (solve_with_time_control_single_core exactEnv board0 (state0 0 83)).trace.filter
          Event.isAttempt
        = (state0 0 83).trace.filter Event.isAttempt ++ budget_events 0 (schedule_budgets 83)
    ∧ schedule_budgets 83 = [10, 10, 10, 10, 10, 11, 11, 11] :=
  ⟨⟨rfl, by decide, by decide, by decide!⟩,
   (schedule_budgets_even_split exactEnv board0 (state0 0 83) 83 rfl (by decide) (by decide)
      (by decide!)).1,
   by decide⟩

theorem single_core_iteration_entry (env : Env Ext) (b : board) (i : Fin 8) (s : State Ext)
    (hpos : 0 < attempt_budget env i.val s) :
    ∃ rest, (single_core_iteration env b i s).trace = s.trace ++ attempt_entry env i s ++ rest := by
  have hpos2 : 0 < Int.tdiv (s.start_time + s.time_limit - env.time s.ext) (8 - (i.val : Int)) :=
    hpos
  obtain ⟨rest, hrest⟩ := solve_with_alg_trace_reset env b _ i 0
    (s.log (Event.time (env.time s.ext))) hpos2
  refine ⟨rest ++ [Event.level_solved ((solve_with_alg env b
          (Int.tdiv (s.start_time + s.time_limit - env.time s.ext) (8 - (i.val : Int))) i 0
          (s.log (Event.time (env.time s.ext)))).helpers 0).level_solved], ?_⟩
  rw [single_core_iteration_eq, log_trace, hrest]
  simp [attempt_entry, attempt_budget]

theorem single_core_iteration_idle (env : Env Ext) (b : board) (i : Fin 8) (s : State Ext)
    (hle : attempt_budget env i.val s ≤ 0) :
    (single_core_iteration env b i s).helpers = s.helpers
    ∧ (single_core_iteration env b i s).trace
        = s.trace ++
          [Event.time (env.time s.ext),
           Event.solve_with_alg (attempt_budget env i.val s) i.val,
           Event.level_solved (s.helpers 0).level_solved] := by
  have hle2 : Int.tdiv (s.start_time + s.time_limit - env.time s.ext) (8 - (i.val : Int)) ≤ 0 :=
    hle
  rw [single_core_iteration_eq, solve_with_alg_nonpositive env b _ i 0 _ hle2]
  exact ⟨rfl, by simp [attempt_budget]⟩

theorem single_core_loop_extends (env : Env Ext) (b : board) :
    ∀ (n : Nat), n ≤ 8 → ∀ (s : State Ext),
      ∃ l, (single_core_loop env b n s).trace = s.trace ++ l := by
  intro n
  induction n with
  | zero => intro _ s; exact ⟨[], by simp [single_core_loop]⟩
  | succ n ih =>
    intro hn s
    obtain ⟨s2, inner, _, ht, _, _, _, hpos, hneg⟩ := single_core_loop_step env b n (by omega) s
    by_cases h : (s2.helpers 0).level_solved = 0
    · obtain ⟨l, hl⟩ := ih (by omega) s2
      exact ⟨_, by rw [hneg h, hl, ht, List.append_assoc]⟩
    · exact ⟨_, by rw [hpos h, ht]⟩

theorem single_core_loop_entry (env : Env Ext) (b : board) (n : Nat) (hn : n < 8)
    (s : State Ext) (hpos : 0 < attempt_budget env (7 - n) s) :
    ∃ rest, (single_core_loop env b (n + 1) s).trace
      = s.trace ++ attempt_entry env ⟨7 - n, by omega⟩ s ++ rest := by
  obtain ⟨s2, inner, hdef, _, _, _, _, hp, hneg⟩ := single_core_loop_step env b n hn s
  obtain ⟨rest, hrest⟩ := single_core_iteration_entry env b ⟨7 - n, by omega⟩ s hpos
  rw [← hdef] at hrest
  by_cases h : (s2.helpers 0).level_solved = 0
  · obtain ⟨l, hl⟩ := single_core_loop_extends env b n (by omega) s2
    exact ⟨rest ++ l, by rw [hneg h, hl, hrest, List.append_assoc]⟩
  · exact ⟨rest, by rw [hp h, hrest]⟩

theorem solve_prologue_one_core (env : Env Ext) (s : State Ext) (hcores : s.cores_num = 1) :
    (solve_prologue env s).helpers 0 = (env.reset_helper (s.helpers 0) s.ext).1
    ∧ (solve_prologue env s).trace
        = s.trace ++ [Event.time (env.time s.ext), Event.reset_helper 0]
    ∧ (solve_prologue env s).cores_num = 1
    ∧ (solve_prologue env s).forced_alg = s.forced_alg := by
  simp [solve_prologue, time0, hcores, reset_helpers, call_reset_helper, callH, State.log]


theorem preprocess_level_forced_alg (env : Env Ext) (b : board) (s : State Ext) :
    (preprocess_level env b s).2.2.forced_alg = s.forced_alg := by
  unfold preprocess_level
  simp only
  split_ifs <;> rfl

theorem solve_with_time_control_schedule (env : Env Ext) (b : board) (s : State Ext)
    (hcores : s.cores_num = 1) (hforced : s.forced_alg = none)
    (hpre : (preprocess_level env b (solve_prologue env s)).1 = 1) :
    ∃ rest, (solve_with_time_control env b s).trace
      = (single_core_loop env (preprocess_level env b (solve_prologue env s)).2.1 8
          (preprocess_level env b (solve_prologue env s)).2.2).trace ++ rest := by
  obtain ⟨_, _, hc, hf⟩ := solve_prologue_one_core env s hcores
  have hc2 : (preprocess_level env b (solve_prologue env s)).2.2.cores_num = 1 := by
    rw [(preprocess_level_frame env b (solve_prologue env s)).2.2.2, hc]
  have hf2 : (preprocess_level env b (solve_prologue env s)).2.2.forced_alg = none := by
    rw [preprocess_level_forced_alg, hf, hforced]
  simp only [solve_with_time_control]
  generalize preprocess_level env b (solve_prologue env s) = p at hpre hc2 hf2 ⊢
  refine ⟨[Event.time (env.time (single_core_loop env p.2.1 8 p.2.2).ext)], ?_⟩
  simp only [hpre, hc2, if_true]
  have hrun : solve_with_time_control_single_core env p.2.1 p.2.2
      = single_core_loop env p.2.1 8 p.2.2 := by
    simp only [solve_with_time_control_single_core, hf2]
  rw [hrun]
  generalize single_core_loop env p.2.1 8 p.2.2 = r
  split_ifs <;> simp [time0, State.log]

/-- C7 (as amended). The helper is reset at the start of the solve and again by every attempt
with a positive budget, and between attempts it is handed over untouched. First, in a solve on
one core with no forced strategy whose preprocessing succeeds, `reset_helper` is called on
`helpers[0]` right after the start time is read, the sequential schedule is entered with the
helper that call left, and its first attempt, if its budget is positive, enters its backward
controller with `reset_helper` applied once more. Second, for consecutive attempts `i` and
`i + 1` of the sequential schedule (`i = 6 - n`), attempt `i` leaving the puzzle unsolved: the
schedule goes on from the state attempt `i` left; if the budget of attempt `i + 1` is positive,
its backward controller is entered with `reset_helper` applied to the helper attempt `i` left;
if the budget is zero or less, the attempt leaves the helpers as attempt `i` left them. -/
theorem attempt_starts_from_reset (env : Env Ext) (b : board) (s u : State Ext) (n : Nat)
    (hn : n < 7) :
    (s.cores_num = 1 → s.forced_alg = none →
      (preprocess_level env b (solve_prologue env s)).1 = 1 →
      (preprocess_level env b (solve_prologue env s)).2.2.helpers 0
          = (env.reset_helper (s.helpers 0) s.ext).1
      ∧ (preprocess_level env b (solve_prologue env s)).2.2.trace
          = s.trace ++ [Event.time (env.time s.ext), Event.reset_helper 0]
      ∧ (0 < attempt_budget env 0 (preprocess_level env b (solve_prologue env s)).2.2 →
          ∃ rest, (solve_with_time_control env b s).trace
            = s.trace ++ [Event.time (env.time s.ext), Event.reset_helper 0]
              ++ attempt_entry env 0 (preprocess_level env b (solve_prologue env s)).2.2
              ++ rest))
    ∧ (((single_core_iteration env b ⟨6 - n, by omega⟩ u).helpers 0).level_solved = 0 →
      single_core_loop env b (n + 2) u
          = single_core_loop env b (n + 1) (single_core_iteration env b ⟨6 - n, by omega⟩ u)
      ∧ (0 < attempt_budget env (7 - n) (single_core_iteration env b ⟨6 - n, by omega⟩ u) →
          ∃ rest, (single_core_loop env b (n + 2) u).trace
            = (single_core_iteration env b ⟨6 - n, by omega⟩ u).trace
              ++ attempt_entry env ⟨7 - n, by omega⟩
                  (single_core_iteration env b ⟨6 - n, by omega⟩ u)
              ++ rest)
      ∧ (attempt_budget env (7 - n) (single_core_iteration env b ⟨6 - n, by omega⟩ u) ≤ 0 →
          (single_core_iteration env b ⟨7 - n, by omega⟩
              (single_core_iteration env b ⟨6 - n, by omega⟩ u)).helpers
            = (single_core_iteration env b ⟨6 - n, by omega⟩ u).helpers
          ∧ single_core_loop env b (n + 2) u
            = single_core_loop env b n
                (single_core_iteration env b ⟨7 - n, by omega⟩
                  (single_core_iteration env b ⟨6 - n, by omega⟩ u)))) := by
  constructor
  · intro hcores hforced hpre
    obtain ⟨hh, ht, _, _⟩ := solve_prologue_one_core env s hcores
    obtain ⟨ft, fh, _, _⟩ := preprocess_level_frame env b (solve_prologue env s)
    have h1 : (preprocess_level env b (solve_prologue env s)).2.2.helpers 0
        = (env.reset_helper (s.helpers 0) s.ext).1 := by rw [fh, hh]
    have h2 : (preprocess_level env b (solve_prologue env s)).2.2.trace
        = s.trace ++ [Event.time (env.time s.ext), Event.reset_helper 0] := by rw [ft, ht]
    refine ⟨h1, h2, ?_⟩
    intro hpos
    obtain ⟨r1, hr1⟩ := solve_with_time_control_schedule env b s hcores hforced hpre
    obtain ⟨r2, hr2⟩ := single_core_loop_entry env
      (preprocess_level env b (solve_prologue env s)).2.1 7 (by omega)
      (preprocess_level env b (solve_prologue env s)).2.2 hpos
    refine ⟨r2 ++ r1, ?_⟩
    rw [hr1, hr2, h2]
    simp only [List.append_assoc]
    rfl
  · intro hflag
    obtain ⟨u1, inner, hdef, _, _, _, _, _, hneg⟩ :=
      single_core_loop_step env b (n + 1) (by omega) u
    have hidx : (⟨7 - (n + 1), by omega⟩ : Fin 8) = ⟨6 - n, by omega⟩ := by
      apply Fin.ext; show 7 - (n + 1) = 6 - n; omega
    rw [hidx] at hdef
    rw [← hdef] at hflag ⊢
    have hover : single_core_loop env b (n + 2) u = single_core_loop env b (n + 1) u1 :=
      hneg hflag
    refine ⟨hover, ?_, ?_⟩
    · intro hpos
      rw [hover]
      exact single_core_loop_entry env b n (by omega) u1 hpos
    · intro hle
      obtain ⟨u2, inner2, hdef2, _, _, _, _, _, hneg2⟩ :=
        single_core_loop_step env b n (by omega) u1
      have hidle := (single_core_iteration_idle env b ⟨7 - n, by omega⟩ u1 hle).1
      rw [← hdef2] at hidle ⊢
      refine ⟨hidle, ?_⟩
      rw [hover]
      apply hneg2
      rw [hidle]
      exact hflag


/-- Witness for C7: a solve of 80 seconds entered with leftovers of an earlier level in the
helper, the packing engine finding a packing order of 5. The reset at the start of the solve
clears the leftovers; attempt 0 leaves a parking order count of 5 and attempt 1 enters its
backward controller with the helper reset. -/
theorem attempt_starts_from_reset_witness :
    ((staleState 0 80).cores_num = 1 ∧ (staleState 0 80).forced_alg = none
      ∧ (preprocess_level packingEnv board0 (solve_prologue packingEnv (staleState 0 80))).1 = 1
      ∧ 0 < attempt_budget packingEnv 0
          (preprocess_level packingEnv board0 (solve_prologue packingEnv (staleState 0 80))).2.2)
    ∧ ((staleState 0 80).helpers 0).parking_order_num = 7
    ∧ (preprocess_level packingEnv board0
          (solve_prologue packingEnv (staleState 0 80))).2.2.helpers 0 = helper0
    ∧ (∃ rest, (solve_with_time_control packingEnv board0 (staleState 0 80)).trace
        = (staleState 0 80).trace
          ++ [Event.time (packingEnv.time (staleState 0 80).ext), Event.reset_helper 0]
          ++ attempt_entry packingEnv 0
              (preprocess_level packingEnv board0
                (solve_prologue packingEnv (staleState 0 80))).2.2
          ++ rest)
    ∧ (((single_core_iteration packingEnv board0 ⟨6 - 6, by omega⟩ (state0 0 80)).helpers
          0).level_solved = 0
      ∧ 0 < attempt_budget packingEnv (7 - 6)
          (single_core_iteration packingEnv board0 ⟨6 - 6, by omega⟩ (state0 0 80)))
    ∧ ((single_core_iteration packingEnv board0 ⟨6 - 6, by omega⟩ (state0 0 80)).helpers
          0).parking_order_num = 5
    ∧ (packingEnv.reset_helper
          ((single_core_iteration packingEnv board0 ⟨6 - 6, by omega⟩ (state0 0 80)).helpers 0)
          (single_core_iteration packingEnv board0 ⟨6 - 6, by omega⟩ (state0 0 80)).ext).1
        = helper0
    ∧ ∃ rest, (single_core_loop packingEnv board0 (6 + 2) (state0 0 80)).trace
        = (single_core_iteration packingEnv board0 ⟨6 - 6, by omega⟩ (state0 0 80)).trace
          ++ attempt_entry packingEnv ⟨7 - 6, by omega⟩
              (single_core_iteration packingEnv board0 ⟨6 - 6, by omega⟩ (state0 0 80))
          ++ rest :=
  ⟨⟨rfl, rfl, by decide!, by decide!⟩, by decide!,
   ((attempt_starts_from_reset packingEnv board0 (staleState 0 80) (state0 0 80) 6
      (by decide)).1 rfl rfl (by decide!)).1.trans (by decide!),
   ((attempt_starts_from_reset packingEnv board0 (staleState 0 80) (state0 0 80) 6
      (by decide)).1 rfl rfl (by decide!)).2.2 (by decide!),
   ⟨by decide!, by decide!⟩, by decide!, by decide!,
   ((attempt_starts_from_reset packingEnv board0 (staleState 0 80) (state0 0 80) 6
      (by decide)).2 (by decide!)).2.1 (by decide!)⟩

end Festival
